import Mathlib

/-!
Verification development for `run_download_goes_ir_vis_l1b_glm_l2_data.py`
(glm_gridder).  The single orchestration function is shallowly embedded:

* timestamps are modelled as seconds since 2000-01-01 00:00:00 UTC (a `Nat`);
  the calendar accessors (`year`, day-of-year, `strftime("%Y%m%d")`, ...) are
  derived from that count with an explicit Gregorian calendar;
* the external blob-store client (`list_gcs`, `download_ncdf_gcs`,
  `copy_blob_gcs`, `download_gcp_parallel`) is an oracle parameter; its `list`
  operation is indexed by a call counter so that successive listings of the
  same query may return different results (the real store changes over time);
* all side effects (listings, downloads, bucket-to-bucket copies, directory
  creation, prints) are recorded in an event log;
* the unbounded real-time spin-wait loops take a fuel parameter; exhausting
  the fuel (`Out.div`) models non-termination of the Python `while True` loop.
-/

set_option maxHeartbeats 1000000

namespace GoesAcq

/-! ### Decimal digit rendering (for the zero-padded `format` fields) -/

def dc : Nat → Char
  | 0 => '0'
  | 1 => '1'
  | 2 => '2'
  | 3 => '3'
  | 4 => '4'
  | 5 => '5'
  | 6 => '6'
  | 7 => '7'
  | 8 => '8'
  | _ => '9'

/-- `'{:02d}'.format n` for `n ≤ 99` (the only uses are month, day, hour,
minute, second, all below 100). -/
def fmt2 (n : Nat) : String := String.mk [dc (n / 10 % 10), dc (n % 10)]

/-- `'{:03d}'.format n` for `n ≤ 999` (used for the day-of-year, ≤ 366). -/
def fmt3 (n : Nat) : String := String.mk [dc (n / 100 % 10), dc (n / 10 % 10), dc (n % 10)]

/-- `'{:04d}'.format n` for `n ≤ 9999` (used for the year; Python `datetime`
years are at most 9999). -/
def fmt4 (n : Nat) : String :=
  String.mk [dc (n / 1000 % 10), dc (n / 100 % 10), dc (n / 10 % 10), dc (n % 10)]

/-! ### Gregorian calendar -/

def isLeap (y : Nat) : Bool := (y % 4 == 0 && y % 100 != 0) || (y % 400 == 0)

def daysInMonth (y m : Nat) : Nat :=
  if m = 2 then (if isLeap y then 29 else 28)
  else if m = 4 ∨ m = 6 ∨ m = 9 ∨ m = 11 then 30
  else 31

structure Ymd where
  year : Nat
  month : Nat
  day : Nat
deriving DecidableEq

def ValidYmd (c : Ymd) : Prop :=
  1 ≤ c.month ∧ c.month ≤ 12 ∧ 1 ≤ c.day ∧ c.day ≤ daysInMonth c.year c.month

instance (c : Ymd) : Decidable (ValidYmd c) := by unfold ValidYmd; infer_instance

def nextDay (c : Ymd) : Ymd :=
  if c.day < daysInMonth c.year c.month then ⟨c.year, c.month, c.day + 1⟩
  else if c.month < 12 then ⟨c.year, c.month + 1, 1⟩
  else ⟨c.year + 1, 1, 1⟩

/-- Calendar date of day number `z` (days since 2000-01-01, the model epoch). -/
def civilOfDay (z : Nat) : Ymd := nextDay^[z] ⟨2000, 1, 1⟩

/-- `date.timetuple().tm_yday`: day-of-year. -/
def doyOf (c : Ymd) : Nat :=
  (List.range (c.month - 1)).foldl (fun a i => a + daysInMonth c.year (i + 1)) c.day

/-- numeric value `yyyymmdd` of a calendar day -/
def ymdN (c : Ymd) : Nat := c.year * 10000 + c.month * 100 + c.day

/-- `date.strftime("%Y%m%d")` -/
def ymdStr (c : Ymd) : String :=
  String.mk [dc (c.year / 1000 % 10), dc (c.year / 100 % 10), dc (c.year / 10 % 10),
    dc (c.year % 10), dc (c.month / 10 % 10), dc (c.month % 10),
    dc (c.day / 10 % 10), dc (c.day % 10)]

/-! ### Timestamp accessors (seconds since the model epoch) -/

def dayOf (t : Nat) : Nat := t / 86400

def dtHour (t : Nat) : Nat := t % 86400 / 3600

def dtMinute (t : Nat) : Nat := t % 3600 / 60

def dtSec (t : Nat) : Nat := t % 60

def dateYmd (t : Nat) : Ymd := civilOfDay (dayOf t)

/-- `date.strftime("%Y%m%d")` of a timestamp -/
def dayStr (t : Nat) : String := ymdStr (dateYmd t)

/-- `date.strftime("%Y-%m-%d-%H-%M-%S")`, used in informational prints -/
def dtLongStr (t : Nat) : String :=
  fmt4 (dateYmd t).year ++ "-" ++ fmt2 (dateYmd t).month ++ "-" ++ fmt2 (dateYmd t).day ++
    "-" ++ fmt2 (dtHour t) ++ "-" ++ fmt2 (dtMinute t) ++ "-" ++ fmt2 (dtSec t)

/-! ### Path strings -/

/-- `os.path.join a b` for a relative, non-empty second component (the only
shape used by the source). -/
def pathJoin (a b : String) : String := a ++ "/" ++ b

def basenameStep (acc : List Char) (c : Char) : List Char :=
  if c = '/' then [] else acc ++ [c]

/-- `os.path.basename`: the part after the last `'/'`. -/
def basename (s : String) : String := String.mk (s.data.foldl basenameStep [])

/-! ### `re.split('_s|_', s)`

The regex alternation tries `'_s'` first at each position, then `'_'`. -/

def splitTokens : List Char → List (List Char)
  | [] => [[]]
  | '_' :: 's' :: rest => [] :: splitTokens rest
  | '_' :: rest => [] :: splitTokens rest
  | c :: rest =>
    match splitTokens rest with
    | [] => [[c]]
    | t :: ts => (c :: t) :: ts

/-- `re.split('_s|_', os.path.basename name)[3]`, the batch identifier;
`none` models the `IndexError` when fewer than four tokens exist. -/
def batchId (name : String) : Option String :=
  ((splitTokens (basename name).data).map String.mk).get? 3

/-! ### Program model -/

/-- Side effects of the orchestrator, in program order.  `listed` records a
`list_gcs` call, `download` a sequential `download_ncdf_gcs` call, `pdownload`
a `download_gcp_parallel` task issued through the `mp.Pool(pool)` worker pool,
`copy` a `copy_blob_gcs` call, `mkdir` an `os.makedirs` call. -/
inductive Ev
  | listed (bucket pre : String) (subs : List String)
  | mkdir (dir : String)
  | download (bucket blob outdir : String)
  | pdownload (pool : Nat) (bucket blob outdir : String)
  | copy (srcBucket blob dstBucket dstKey : String)
  | print (msg : String)
deriving DecidableEq

/-- Python runtime errors the function can raise:
`indexError` for `sector[0]` on an empty string / `[3]` on a short split,
`badSector` for the diagnostic `exit()` on an unsupported sector,
`nameError` for reading the never-assigned local `outfile`. -/
inductive Err
  | indexError
  | badSector
  | nameError
deriving DecidableEq

/-- Mutable state threaded through the run: `k` counts `list_gcs` calls (the
oracle's time index), `outfile` is the Python local of that name (`none` =
unbound), `evs` the event log. -/
structure St where
  k : Nat
  outfile : Option String
  evs : List Ev
deriving DecidableEq

/-- Outcome of a (piece of the) run: normal value, uncaught Python error, or
`div` = the spin-wait fuel ran out, modelling divergence of `while True`. -/
inductive Out (α : Type)
  | ok (a : α) (s : St)
  | err (e : Err) (s : St)
  | div (s : St)
deriving DecidableEq

/-- External blob-store client.  `listGcs k bucket pre subs` is the listing
returned by the `k`-th `list_gcs` call of the run (the call counter models
the store changing between polls).  Downloads are modelled as succeeding,
returning `os.path.join outdir (basename blob)`. -/
structure Client where
  listGcs : Nat → String → String → List String → List String

/-- Keyword arguments of `run_download_goes_ir_vis_l1b_glm_l2_data`.
`date1`/`date2` are already-parsed timestamps (`strptime` is out of scope);
`none` means the Python `None`.  `verbose` is omitted: it only gates two
informational prints (logging is out of scope per the spec). -/
structure Config where
  date1 : Option Nat
  date2 : Option Nat
  outroot : String
  sat : String
  sector : String
  no_glm : Bool
  no_vis : Bool
  no_ir : Bool
  no_irdiff : Bool
  gcs_bucket : Option String
  del_local : Bool
deriving DecidableEq

/-- One `list_gcs` call: returns the listing, bumps the call counter, records
the event. -/
def listCall (client : Client) (bucket pre : String) (subs : List String) (s : St) :
    List String × St :=
  (client.listGcs s.k bucket pre subs,
    { s with k := s.k + 1, evs := s.evs ++ [.listed bucket pre subs] })

def emit (s : St) (e : Ev) : St := { s with evs := s.evs ++ [e] }

/-- `while True: files = list_gcs(...); if len(files) > 0: break` -/
def spinList (client : Client) (bucket pre : String) (subs : List String) :
    Nat → St → Out (List String)
  | 0, s => .div s
  | fuel + 1, s =>
    let (files, s) := listCall client bucket pre subs s
    if files.length > 0 then .ok files s
    else spinList client bucket pre subs fuel s

/-- the `if/elif` chain deriving `sector0` (lines 125-136); `none` = the
`else: print(...); exit()` branch -/
def sectorCode (sector : String) : Option String :=
  if sector = "meso1" then some (String.mk [(sector.data.headD ' ').toUpper] ++ "1")
  else if sector = "meso2" then some (String.mk [(sector.data.headD ' ').toUpper] ++ "2")
  else if sector = "conus" then some "C"
  else if sector = "full" then some "F"
  else none

/-- number of trailing GLM files kept in real time (lines 249-255) -/
def glmCount (sector0 : String) : Nat :=
  if sector0 = "F" then 30 else if sector0 = "C" then 15 else 10

/-- Python `l[-n:]` for `n ≥ 1` -/
def takeLast {α : Type} (n : Nat) (l : List α) : List α := l.drop (l.length - n)

/-- `'{}/{}/{:03d}/{:02d}/'.format(prod, date.year, day_num, date.hour)` -/
def hourPre (prod : String) (t : Nat) : String :=
  prod ++ "/" ++ toString (dateYmd t).year ++ "/" ++ fmt3 (doyOf (dateYmd t)) ++ "/" ++
    fmt2 (dtHour t) ++ "/"

/-- `'s{}{:03d}{:02d}'.format(date.year, day_num, date.hour)` -/
def tStr (t : Nat) : String :=
  "s" ++ toString (dateYmd t).year ++ fmt3 (doyOf (dateYmd t)) ++ fmt2 (dtHour t)

/-- `os.path.join(outroot, date.strftime("%Y%m%d"), cat)` -/
def outdirOf (outroot : String) (t : Nat) (cat : String) : String :=
  pathJoin (pathJoin outroot (dayStr t)) cat

/-- destination key `os.path.join(pref, os.path.basename i)` with
`pref = os.path.join(date.strftime("%Y%m%d"), cat)` -/
def joinKey (t : Nat) (cat blob : String) : String :=
  pathJoin (pathJoin (dayStr t) cat) (basename blob)

/-- The per-file loop shared by the IR (182-186), VIS (206-211), 6.2 µm
(232-237), historical current-hour GLM (257-262) and historical next-hour GLM
(310-315) blocks: download unless `del_local`, then mirror with a
`os.path.join` destination key. -/
def deliverLoop (cfg : Config) (bucket cat : String) (t : Nat) :
    List String → St → St
  | [], s => s
  | i :: rest, s =>
    let s :=
      if cfg.del_local = false then
        { s with outfile := some (pathJoin (outdirOf cfg.outroot t cat) (basename i)),
                 evs := s.evs ++ [.download bucket i (outdirOf cfg.outroot t cat)] }
      else s
    let s :=
      match cfg.gcs_bucket with
      | some g => emit s (.copy bucket i g (joinKey t cat i))
      | none => s
    deliverLoop cfg bucket cat t rest s

/-- The historical previous-hour GLM backfill loop (lines 283-288).  Unlike
`deliverLoop` its mirror key is the string concatenation
`pref + os.path.basename(outfile)` (no separator), and it reads the local
`outfile`, raising `NameError` when that variable was never assigned. -/
def backfillLoop (cfg : Config) (bucket : String) (t : Nat) :
    List String → St → Out Unit
  | [], s => .ok () s
  | i :: rest, s =>
    let s :=
      if cfg.del_local = false then
        { s with outfile := some (pathJoin (outdirOf cfg.outroot t "glm") (basename i)),
                 evs := s.evs ++ [.download bucket i (outdirOf cfg.outroot t "glm")] }
      else s
    match cfg.gcs_bucket with
    | some g =>
      match s.outfile with
      | none => .err .nameError s
      | some f =>
        backfillLoop cfg bucket t rest
          (emit s (.copy bucket i g (pathJoin (dayStr t) "glm" ++ basename f)))
    | none => backfillLoop cfg bucket t rest s

/-- the fixed worker-pool size of `mp.Pool(5)` (line 292) -/
def poolSize : Nat := 5

/-- Parameters fixed for the whole run (derived once before the hour loop). -/
structure Ps where
  cfg : Config
  client : Client
  rt : Bool
  bucket : String
  sector0 : String
  ivProd : String
  fuel : Nat

/-- The IR block (lines 167-189).  Returns the value of the Python local
`files` after the block. -/
def irStep (p : Ps) (t : Nat) (s : St) : Out (List String) :=
  let subs := ["C13", tStr t, p.sector0]
  let ivp := hourPre p.ivProd t
  let (files, s) := listCall p.client p.bucket ivp subs s
  let r : Out (List String) :=
    if files.length = 0 ∧ p.rt = true then
      spinList p.client p.bucket ivp subs p.fuel
        (emit s (.print "Waiting for IR C13 files to be available online"))
    else .ok files s
  match r with
  | .ok files s =>
    if files.length > 0 then
      let s := emit s (.mkdir (outdirOf p.cfg.outroot t "ir"))
      let files := if p.rt then [files.getLastD ""] else files
      .ok files (deliverLoop p.cfg p.bucket "ir" t files s)
    else .ok files (emit s (.print ("No IR files found for " ++ dtLongStr t)))
  | .err e s => .err e s
  | .div s => .div s

/-- The VIS block (lines 191-214) and the 6.2 µm block (lines 216-242), which
differ only in channel code, category, waiting print and not-found print.
In real time with IR enabled the listing is correlated through the batch
identifier of `filesIn[0]` (the `files` binding left by the previous block),
and an empty result is retried with the *same* correlated query. -/
def corrStep (p : Ps) (ch cat : String) (wmsg : Option String) (noMsg : String)
    (t : Nat) (filesIn : List String) (s : St) : Out (List String) :=
  let ivp := hourPre p.ivProd t
  let r : Out (List String) :=
    if p.rt = true ∧ p.cfg.no_ir = false then
      match filesIn.get? 0 with
      | none => .err .indexError s
      | some f0 =>
        match batchId f0 with
        | none => .err .indexError s
        | some fb =>
          let subs := [ch, tStr t, p.sector0, fb]
          let (files, s) := listCall p.client p.bucket ivp subs s
          if files.length = 0 then
            let s := match wmsg with | some m => emit s (.print m) | none => s
            spinList p.client p.bucket ivp subs p.fuel s
          else .ok files s
    else
      let (files, s) := listCall p.client p.bucket ivp [ch, tStr t, p.sector0] s
      .ok files s
  match r with
  | .ok files s =>
    if files.length > 0 then
      let s := emit s (.mkdir (outdirOf p.cfg.outroot t cat))
      let files := if p.rt then [files.getLastD ""] else files
      .ok files (deliverLoop p.cfg p.bucket cat t files s)
    else .ok files (emit s (.print (noMsg ++ dtLongStr t)))
  | .err e s => .err e s
  | .div s => .div s

/-- The GLM block (lines 244-316): current-hour listing and selection,
previous-hour backfill when the minute is below 3, the real-time pooled
download and mirror, and the historical next-hour prefetch when the minute
exceeds 55. -/
def glmStep (p : Ps) (t : Nat) (filesIn : List String) (s : St) : Out (List String) :=
  if p.cfg.no_glm = false then
    let gp := hourPre "GLM-L2-LCFA" t
    let (files, s) := listCall p.client p.bucket gp ["GLM", tStr t] s
    let (files, s) :=
      if files.length > 0 then
        let s := emit s (.mkdir (outdirOf p.cfg.outroot t "glm"))
        if p.rt then (takeLast (glmCount p.sector0) files, s)
        else (files, deliverLoop p.cfg p.bucket "glm" t files s)
      else (files, emit s (.print ("No GLM files found for " ++ dtLongStr t)))
    let minute := dtMinute t
    let r : Out (List String) :=
      if minute < 3 then
        let t0 := t - 3600
        let (files0, s) :=
          listCall p.client p.bucket (hourPre "GLM-L2-LCFA" t0) ["GLM", tStr t0] s
        if files0.length > 0 then
          let s := emit s (.mkdir (outdirOf p.cfg.outroot t "glm"))
          if p.rt then
            .ok (files ++ files0.drop (8 - 3 * minute)) s
          else
            let files := takeLast 8 files0
            match backfillLoop p.cfg p.bucket t files s with
            | .ok _ s => .ok files s
            | .err e s => .err e s
            | .div s => .div s
        else .ok files s
      else .ok files s
    match r with
    | .ok files s =>
      let s :=
        if p.rt then
          let s :=
            if p.cfg.del_local = false then
              { s with evs := s.evs ++ files.map (fun i =>
                  Ev.pdownload poolSize p.bucket i (outdirOf p.cfg.outroot t "glm")) }
            else s
          match p.cfg.gcs_bucket with
          | some g => { s with evs := s.evs ++ files.map (fun i =>
              Ev.copy p.bucket i g (joinKey t "glm" i)) }
          | none => s
        else s
      if minute > 55 ∧ p.rt = false then
        let t1 := t + 3600
        let (files, s) :=
          listCall p.client p.bucket (hourPre "GLM-L2-LCFA" t1) ["GLM", tStr t1] s
        if files.length > 0 then
          let s := emit s (.mkdir (outdirOf p.cfg.outroot t "glm"))
          let files := files.take 8
          .ok files (deliverLoop p.cfg p.bucket "glm" t files s)
        else .ok files s
      else .ok files s
    | .err e s => .err e s
    | .div s => .div s
  else .ok filesIn s

/-- One iteration of the hour loop (lines 163-316): the four category blocks
in order, threading the Python local `files`. -/
def hourBody (p : Ps) (t : Nat) (filesIn : List String) (s : St) : Out (List String) :=
  match (if p.cfg.no_ir = false then irStep p t s else .ok filesIn s) with
  | .err e s => .err e s
  | .div s => .div s
  | .ok files s =>
    match (if p.cfg.no_vis = false then
        corrStep p "C02" "vis" none "No VIS files found for " t files s
      else .ok files s) with
    | .err e s => .err e s
    | .div s => .div s
    | .ok files s =>
      match (if p.cfg.no_irdiff = false then
          corrStep p "C08" "ir_diff" (some "Waiting for IR C08 files to be available online")
            "No 6.2 micron IR files found for " t files s
        else .ok files s) with
      | .err e s => .err e s
      | .div s => .div s
      | .ok files s => glmStep p t files s

/-- Manifest update (lines 318-321): append `os.path.join(outroot, YYYYMMDD)`
when the list is empty or the day differs from the last entry's basename. -/
def appendEntry (outroot : String) (t : Nat) (acc : List String) : List String :=
  if acc.length = 0 then acc ++ [pathJoin outroot (dayStr t)]
  else if dayStr t ≠ basename (acc.getLastD "") then acc ++ [pathJoin outroot (dayStr t)]
  else acc

/-- `while date2 >= date:` (lines 162-322): run the hour body, update the
manifest, advance the cursor by one hour. -/
def mainLoop (p : Ps) (date2 date : Nat) (acc files : List String) (s : St) :
    Out (List String) :=
  if h : date ≤ date2 then
    match hourBody p date files s with
    | .err e s => .err e s
    | .div s => .div s
    | .ok files s =>
      mainLoop p date2 (date + 3600) (appendEntry p.cfg.outroot date acc) files s
  else .ok acc s
termination_by date2 + 3600 - date
decreasing_by omega

/-- The cursor values at which the hour-loop body executes. -/
def hoursVisited (date2 date : Nat) : List Nat :=
  if _h : date ≤ date2 then date :: hoursVisited date2 (date + 3600) else []
termination_by date2 + 3600 - date
decreasing_by omega

/-- Real-time start-time adjustment (lines 142-146): full-disk and CONUS
scans publish with latency, so the cursor is moved back when the current
minute is small. -/
def rtAdjust (sector0 : String) (now : Nat) : Nat :=
  if sector0 = "F" ∨ sector0 = "C" then
    if dtMinute now < 10 ∧ sector0 = "F" then now - 600
    else if dtMinute now < 4 ∧ sector0 = "C" then now - 300
    else now
  else now

/-- `run_download_goes_ir_vis_l1b_glm_l2_data`.  `now` is the value of
`datetime.utcnow()`; `fuel` bounds the real-time spin-wait loops (`Out.div`
models their divergence).  Returns the manifest `outroot0`. -/
def run (cfg : Config) (client : Client) (now fuel : Nat) : Out (List String) :=
  match cfg.sector.data with
  | [] => .err .indexError ⟨0, none, []⟩
  | c :: _ =>
    let ivProd := "ABI-L1b-Rad" ++ String.mk [c.toUpper]
    match sectorCode cfg.sector with
    | none => .err .badSector ⟨0, none,
        [.print "Not yet set up to do specified sector", .print cfg.sector]⟩
    | some sector0 =>
      let bucket := "gcp-public-data-" ++ String.map Char.toLower cfg.sat
      match cfg.date1 with
      | none =>
        let d := rtAdjust sector0 now
        mainLoop ⟨cfg, client, true, bucket, sector0, ivProd, fuel⟩ d d [] [] ⟨0, none, []⟩
      | some d1 =>
        mainLoop ⟨cfg, client, false, bucket, sector0, ivProd, fuel⟩
          (cfg.date2.getD d1) d1 [] [] ⟨0, none, []⟩

/-! ### Calendar lemmas -/

theorem daysInMonth_pos (y m : Nat) : 1 ≤ daysInMonth y m := by
  unfold daysInMonth
  split
  · cases isLeap y <;> simp
  · split <;> omega

theorem daysInMonth_le (y m : Nat) : daysInMonth y m ≤ 31 := by
  unfold daysInMonth
  split
  · cases isLeap y <;> simp
  · split <;> omega

theorem validYmd_nextDay {c : Ymd} (h : ValidYmd c) : ValidYmd (nextDay c) := by
  obtain ⟨h1, h2, h3, h4⟩ := h
  have hp12 : 1 ≤ daysInMonth c.year (c.month + 1) := daysInMonth_pos _ _
  have hp1 : 1 ≤ daysInMonth (c.year + 1) 1 := daysInMonth_pos _ _
  unfold ValidYmd nextDay
  split
  · dsimp only
    omega
  · split <;> dsimp only <;> omega

theorem ymdN_lt_nextDay {c : Ymd} (h : ValidYmd c) : ymdN c < ymdN (nextDay c) := by
  obtain ⟨h1, h2, h3, h4⟩ := h
  have hd := daysInMonth_le c.year c.month
  unfold nextDay
  split
  · unfold ymdN
    dsimp only
    omega
  · split <;> (unfold ymdN; dsimp only; omega)

theorem validYmd_civilOfDay (z : Nat) : ValidYmd (civilOfDay z) := by
  induction z with
  | zero => exact (by decide : ValidYmd ⟨2000, 1, 1⟩)
  | succ n ih =>
    rw [civilOfDay, Function.iterate_succ_apply']
    exact validYmd_nextDay ih

theorem civil_ymdN_strictMono : StrictMono (fun z => ymdN (civilOfDay z)) := by
  apply strictMono_nat_of_lt_succ
  intro n
  show ymdN (civilOfDay n) < ymdN (civilOfDay (n + 1))
  have hstep : civilOfDay (n + 1) = nextDay (civilOfDay n) := by
    rw [civilOfDay, civilOfDay, Function.iterate_succ_apply']
  rw [hstep]
  exact ymdN_lt_nextDay (validYmd_civilOfDay n)

theorem civil_ymdN_inj {z z' : Nat} (h : ymdN (civilOfDay z) = ymdN (civilOfDay z')) :
    z = z' :=
  civil_ymdN_strictMono.injective h

theorem ymdN_div_10000 {c : Ymd} (h : ValidYmd c) : ymdN c / 10000 = c.year := by
  obtain ⟨h1, h2, h3, h4⟩ := h
  have hd := daysInMonth_le c.year c.month
  unfold ymdN
  omega

theorem civil_year_mono {z z' : Nat} (h : z ≤ z') :
    (civilOfDay z).year ≤ (civilOfDay z').year := by
  rw [← ymdN_div_10000 (validYmd_civilOfDay z), ← ymdN_div_10000 (validYmd_civilOfDay z')]
  exact Nat.div_le_div_right (civil_ymdN_strictMono.monotone h)

/-! ### Digit-string lemmas -/

theorem dc_inj {a b : Nat} (ha : a < 10) (hb : b < 10) (h : dc a = dc b) : a = b := by
  interval_cases a <;> interval_cases b <;> revert h <;> decide

theorem dc_ne_slash (n : Nat) : dc n ≠ '/' := by
  unfold dc
  split <;> decide

theorem ymdStr_inj {c c' : Ymd} (hc : ValidYmd c) (hc' : ValidYmd c')
    (hy : c.year ≤ 9999) (hy' : c'.year ≤ 9999) (h : ymdStr c = ymdStr c') : c = c' := by
  obtain ⟨m1, m2, d1, d2⟩ := hc
  obtain ⟨m1', m2', d1', d2'⟩ := hc'
  have hd := daysInMonth_le c.year c.month
  have hd' := daysInMonth_le c'.year c'.month
  unfold ymdStr at h
  have h8 : [dc (c.year / 1000 % 10), dc (c.year / 100 % 10), dc (c.year / 10 % 10),
      dc (c.year % 10), dc (c.month / 10 % 10), dc (c.month % 10),
      dc (c.day / 10 % 10), dc (c.day % 10)] =
      [dc (c'.year / 1000 % 10), dc (c'.year / 100 % 10), dc (c'.year / 10 % 10),
      dc (c'.year % 10), dc (c'.month / 10 % 10), dc (c'.month % 10),
      dc (c'.day / 10 % 10), dc (c'.day % 10)] := congrArg String.data h
  simp only [List.cons.injEq, and_true] at h8
  obtain ⟨e1, e2, e3, e4, e5, e6, e7, e8⟩ := h8
  have t10 : ∀ n : Nat, n % 10 < 10 := fun n => Nat.mod_lt _ (by norm_num)
  have g1 := dc_inj (t10 _) (t10 _) e1
  have g2 := dc_inj (t10 _) (t10 _) e2
  have g3 := dc_inj (t10 _) (t10 _) e3
  have g4 := dc_inj (t10 _) (t10 _) e4
  have g5 := dc_inj (t10 _) (t10 _) e5
  have g6 := dc_inj (t10 _) (t10 _) e6
  have g7 := dc_inj (t10 _) (t10 _) e7
  have g8 := dc_inj (t10 _) (t10 _) e8
  have hyy : c.year = c'.year := by omega
  have hmm : c.month = c'.month := by omega
  have hdd : c.day = c'.day := by omega
  cases c; cases c'
  simp_all

/-- distinct day numbers (within the Python `datetime` year range) render to
distinct `%Y%m%d` strings -/
theorem dayRender_inj {z z' : Nat} (hy : (civilOfDay z).year ≤ 9999)
    (hy' : (civilOfDay z').year ≤ 9999)
    (h : ymdStr (civilOfDay z) = ymdStr (civilOfDay z')) : z = z' :=
  civil_ymdN_inj (congrArg ymdN
    (ymdStr_inj (validYmd_civilOfDay z) (validYmd_civilOfDay z') hy hy' h))

/-! ### Path-string lemmas -/

theorem foldl_basenameStep_noSlash (l : List Char) (acc : List Char) (h : '/' ∉ l) :
    List.foldl basenameStep acc l = acc ++ l := by
  induction l generalizing acc with
  | nil => simp
  | cons c cs ih =>
    simp only [List.mem_cons, not_or] at h
    rw [List.foldl_cons, basenameStep, if_neg (fun hc => h.1 hc.symm), ih _ h.2]
    simp

theorem basename_pathJoin (a b : String) (h : '/' ∉ b.data) :
    basename (pathJoin a b) = b := by
  unfold basename pathJoin
  rw [String.data_append, String.data_append]
  have hs : ("/" : String).data = ['/'] := rfl
  rw [hs, List.foldl_append, List.foldl_append, List.foldl_cons, List.foldl_nil]
  have h2 : basenameStep (List.foldl basenameStep [] a.data) '/' = [] := by
    simp [basenameStep]
  rw [h2, foldl_basenameStep_noSlash _ _ h, List.nil_append]

theorem ymdStr_noSlash (c : Ymd) : '/' ∉ (ymdStr c).data := by
  intro hmem
  have hm2 : '/' ∈ [dc (c.year / 1000 % 10), dc (c.year / 100 % 10), dc (c.year / 10 % 10),
      dc (c.year % 10), dc (c.month / 10 % 10), dc (c.month % 10),
      dc (c.day / 10 % 10), dc (c.day % 10)] := hmem
  simp at hm2
  rcases hm2 with h | h | h | h | h | h | h | h <;>
    first
      | exact dc_ne_slash _ h
      | exact dc_ne_slash _ h.symm

theorem dayStr_noSlash (t : Nat) : '/' ∉ (dayStr t).data :=
  ymdStr_noSlash (dateYmd t)

theorem basename_entry (outroot : String) (t : Nat) :
    basename (pathJoin outroot (dayStr t)) = dayStr t :=
  basename_pathJoin _ _ (dayStr_noSlash t)

theorem basename_noSlash (s : String) : '/' ∉ (basename s).data := by
  unfold basename
  show '/' ∉ List.foldl basenameStep [] s.data
  have key : ∀ (l acc : List Char), '/' ∉ acc → '/' ∉ List.foldl basenameStep acc l := by
    intro l
    induction l with
    | nil => intro acc h; simpa using h
    | cons c cs ih =>
      intro acc h
      rw [List.foldl_cons]
      apply ih
      unfold basenameStep
      split
      · simp
      · intro hx
        rcases List.mem_append.mp hx with h1 | h2
        · exact h h1
        · simp only [List.mem_singleton] at h2
          next hne => exact hne h2.symm
  exact key _ _ (by simp)

theorem pathJoin_inj {a b b' : String} (h : pathJoin a b = pathJoin a b') : b = b' := by
  unfold pathJoin at h
  have hd := congrArg String.data h
  rw [String.data_append, String.data_append, String.data_append, String.data_append,
    List.append_assoc, List.append_assoc] at hd
  have := List.append_cancel_left hd
  have := List.append_cancel_left this
  exact String.ext this

/-! ### Manifest and loop lemmas -/

/-- the manifest after processing a list of cursor values -/
def manifestFold (outroot : String) (dates : List Nat) (acc : List String) : List String :=
  dates.foldl (fun a t => appendEntry outroot t a) acc

/-- keep the head of every run of adjacent equal elements, the previous kept
element being `p` -/
def dedupFrom {α : Type} [DecidableEq α] : Option α → List α → List α
  | _, [] => []
  | none, x :: xs => x :: dedupFrom (some x) xs
  | some p, x :: xs => if x ≠ p then x :: dedupFrom (some x) xs else dedupFrom (some p) xs

theorem manifestFold_eq (outroot : String) (dates : List Nat) :
    ∀ (acc : List String) (b : String), acc ≠ [] → basename (acc.getLastD "") = b →
      manifestFold outroot dates acc =
        acc ++ (dedupFrom (some b) (dates.map dayStr)).map (fun y => pathJoin outroot y) := by
  induction dates with
  | nil => intro acc b _ _; simp [manifestFold, dedupFrom]
  | cons t rest ih =>
    intro acc b hne hb
    have hlen : ¬ acc.length = 0 := by simpa using hne
    by_cases hday : dayStr t = b
    · have happ : appendEntry outroot t acc = acc := by
        unfold appendEntry
        rw [if_neg hlen, hb, if_neg (by simp [hday])]
      have hfold : manifestFold outroot (t :: rest) acc = manifestFold outroot rest acc := by
        simp only [manifestFold, List.foldl_cons, happ]
      rw [hfold, ih acc b hne hb]
      simp [dedupFrom, hday]
    · have happ : appendEntry outroot t acc = acc ++ [pathJoin outroot (dayStr t)] := by
        unfold appendEntry
        rw [if_neg hlen, hb, if_pos hday]
      have hfold : manifestFold outroot (t :: rest) acc =
          manifestFold outroot rest (acc ++ [pathJoin outroot (dayStr t)]) := by
        simp only [manifestFold, List.foldl_cons, happ]
      have hlast : (acc ++ [pathJoin outroot (dayStr t)]).getLastD "" =
          pathJoin outroot (dayStr t) := by
        simp [List.getLastD_concat]
      rw [hfold, ih (acc ++ [pathJoin outroot (dayStr t)]) (dayStr t) (by simp)
        (by rw [hlast]; exact basename_entry outroot t)]
      simp [dedupFrom, hday]

theorem manifestFold_nilAcc (outroot : String) (dates : List Nat) :
    manifestFold outroot dates [] =
      (dedupFrom none (dates.map dayStr)).map (fun y => pathJoin outroot y) := by
  cases dates with
  | nil => simp [manifestFold, dedupFrom]
  | cons t rest =>
    have h1 : appendEntry outroot t [] = [pathJoin outroot (dayStr t)] := by
      unfold appendEntry
      simp
    have hfold : manifestFold outroot (t :: rest) [] =
        manifestFold outroot rest [pathJoin outroot (dayStr t)] := by
      simp only [manifestFold, List.foldl_cons, h1]
    rw [hfold, manifestFold_eq outroot rest [pathJoin outroot (dayStr t)] (dayStr t)
      (by simp) (by simp [basename_entry])]
    simp [dedupFrom]

theorem mainLoop_ok_manifest (p : Ps) (d2 : Nat) :
    ∀ (n date : Nat) (acc files : List String) (s : St) (m : List String) (s' : St),
      d2 + 3600 - date ≤ n →
      mainLoop p d2 date acc files s = .ok m s' →
      m = manifestFold p.cfg.outroot (hoursVisited d2 date) acc := by
  intro n
  induction n with
  | zero =>
    intro date acc files s m s' hle hrun
    have hgt : ¬ date ≤ d2 := by omega
    rw [mainLoop.eq_def, dif_neg hgt] at hrun
    rw [hoursVisited.eq_def, dif_neg hgt]
    injection hrun with h1 h2
    subst h1
    rfl
  | succ n ihn =>
    intro date acc files s m s' hle hrun
    rw [mainLoop.eq_def] at hrun
    rw [hoursVisited.eq_def]
    by_cases hd : date ≤ d2
    · rw [dif_pos hd] at hrun
      rw [dif_pos hd]
      cases hbody : hourBody p date files s with
      | err e s1 => rw [hbody] at hrun; simp at hrun
      | div s1 => rw [hbody] at hrun; simp at hrun
      | ok files1 s1 =>
        rw [hbody] at hrun
        have := ihn (date + 3600) (appendEntry p.cfg.outroot date acc) files1 s1 m s'
          (by omega) hrun
        rw [this]
        simp [manifestFold]
    · rw [dif_neg hd] at hrun
      rw [dif_neg hd]
      injection hrun with h1 h2
      subst h1
      rfl

theorem range_step (a k : Nat) :
    (List.range (k + 1)).map (fun i => a + 3600 * i) =
      a :: (List.range k).map (fun i => a + 3600 + 3600 * i) := by
  rw [List.range_succ_eq_map, List.map_cons, List.map_map]
  have hfun : ((fun i => a + 3600 * i) ∘ Nat.succ) = (fun i => a + 3600 + 3600 * i) := by
    funext i
    simp only [Function.comp_apply]
    omega
  rw [hfun]
  simp

theorem hoursVisited_eq_range {d2 : Nat} :
    ∀ (n date : Nat), d2 + 3600 - date ≤ n → date ≤ d2 →
      hoursVisited d2 date =
        (List.range ((d2 - date) / 3600 + 1)).map (fun i => date + 3600 * i) := by
  intro n
  induction n with
  | zero => intro date hle hd; exact absurd hd (by omega)
  | succ n ihn =>
    intro date hle hd
    rw [hoursVisited.eq_def, dif_pos hd]
    by_cases hnext : date + 3600 ≤ d2
    · rw [ihn (date + 3600) (by omega) hnext]
      have hdiv : (d2 - date) / 3600 + 1 = ((d2 - (date + 3600)) / 3600 + 1) + 1 := by
        omega
      rw [hdiv, range_step date ((d2 - (date + 3600)) / 3600 + 1)]
    · rw [hoursVisited.eq_def, dif_neg hnext]
      have hdiv : (d2 - date) / 3600 = 0 := by omega
      rw [hdiv]
      have hr1 : List.range 1 = [0] := rfl
      rw [hr1]
      simp

theorem hoursVisited_range {d1 d2 : Nat} (hle : d1 ≤ d2) :
    hoursVisited d2 d1 = (List.range ((d2 - d1) / 3600 + 1)).map (fun i => d1 + 3600 * i) :=
  hoursVisited_eq_range (d2 + 3600 - d1) d1 (le_refl _) hle

theorem hoursVisited_le {d2 : Nat} :
    ∀ (n date : Nat), d2 + 3600 - date ≤ n → ∀ t ∈ hoursVisited d2 date, t ≤ d2 := by
  intro n
  induction n with
  | zero =>
    intro date hle t ht
    rw [hoursVisited.eq_def, dif_neg (by omega : ¬ date ≤ d2)] at ht
    simp at ht
  | succ n ihn =>
    intro date hle t ht
    rw [hoursVisited.eq_def] at ht
    by_cases hd : date ≤ d2
    · rw [dif_pos hd] at ht
      rcases List.mem_cons.mp ht with h | h
      · omega
      · exact ihn (date + 3600) (by omega) t h
    · rw [dif_neg hd] at ht
      simp at ht

/-! ### dedupFrom ordering lemmas -/

theorem dedupFrom_subset {α : Type} [DecidableEq α] :
    ∀ (l : List α) (p : Option α) (x : α), x ∈ dedupFrom p l → x ∈ l := by
  intro l
  induction l with
  | nil => intro p x hx; cases p <;> simp [dedupFrom] at hx
  | cons y ys ih =>
    intro p x hx
    cases p with
    | none =>
      rw [dedupFrom] at hx
      rcases List.mem_cons.mp hx with h | h
      · simp [h]
      · exact List.mem_cons_of_mem y (ih (some y) x h)
    | some q =>
      rw [dedupFrom] at hx
      split at hx
      · rcases List.mem_cons.mp hx with h | h
        · simp [h]
        · exact List.mem_cons_of_mem y (ih (some y) x h)
      · exact List.mem_cons_of_mem y (ih (some q) x hx)

theorem dedupFrom_map {α β : Type} [DecidableEq α] [DecidableEq β] (f : α → β) :
    ∀ (l : List α) (p : Option α),
      (∀ a b : α, (a ∈ l ∨ p = some a) → (b ∈ l ∨ p = some b) → f a = f b → a = b) →
      dedupFrom (p.map f) (l.map f) = (dedupFrom p l).map f := by
  intro l
  induction l with
  | nil => intro p _; cases p <;> simp [dedupFrom]
  | cons x xs ih =>
    intro p hinj
    have hweak : ∀ a : α, (a ∈ xs ∨ some x = some a) → a ∈ x :: xs := by
      intro a ha
      rcases ha with h | h
      · exact List.mem_cons_of_mem x h
      · injection h with h
        subst h
        exact List.mem_cons_self x xs
    cases p with
    | none =>
      simp only [List.map_cons, Option.map_none', dedupFrom]
      rw [show (some (f x)) = (some x).map f from rfl,
        ih (some x) (fun a b ha hb => hinj a b (Or.inl (hweak a ha)) (Or.inl (hweak b hb)))]
      try simp
    | some q =>
      simp only [List.map_cons, Option.map_some', dedupFrom]
      have hiff : f x = f q ↔ x = q := by
        constructor
        · intro h
          exact hinj x q (Or.inl (by simp)) (Or.inr rfl) h
        · intro h; rw [h]
      have hweakq : ∀ a : α, (a ∈ xs ∨ some q = some a) → (a ∈ x :: xs ∨ some q = some a) := by
        intro a ha
        rcases ha with h | h
        · exact Or.inl (List.mem_cons_of_mem x h)
        · exact Or.inr h
      by_cases hxq : x = q
      · rw [if_neg (by simp [hiff, hxq]), if_neg (by simp [hxq])]
        exact ih (some q) (fun a b ha hb => hinj a b (hweakq a ha) (hweakq b hb))
      · rw [if_pos (by simp [hiff, hxq]), if_pos (by simp [hxq])]
        rw [show (some (f x)) = (some x).map f from rfl,
          ih (some x) (fun a b ha hb => hinj a b (Or.inl (hweak a ha)) (Or.inl (hweak b hb)))]
        try simp

theorem dedupFrom_sorted_chain :
    ∀ (l : List Nat) (p : Nat), l.Sorted (· ≤ ·) → (∀ x ∈ l, p ≤ x) →
      List.Chain' (· < ·) (p :: dedupFrom (some p) l) := by
  intro l
  induction l with
  | nil => intro p _ _; simp [dedupFrom]
  | cons x xs ih =>
    intro p hs hp
    rw [List.sorted_cons] at hs
    obtain ⟨hx, hxs⟩ := hs
    by_cases hxq : x = p
    · rw [dedupFrom, if_neg (by simp [hxq])]
      exact ih p hxs (fun y hy => hxq ▸ hx y hy)
    · rw [dedupFrom, if_pos hxq]
      have hplt : p < x := lt_of_le_of_ne (hp x (by simp)) (fun h => hxq h.symm)
      rw [List.chain'_cons]
      exact ⟨hplt, ih x hxs hx⟩

theorem dedupFrom_none_chain (l : List Nat) (h : l.Sorted (· ≤ ·)) :
    List.Chain' (· < ·) (dedupFrom none l) := by
  cases l with
  | nil => simp [dedupFrom]
  | cons x xs =>
    rw [dedupFrom]
    rw [List.sorted_cons] at h
    exact dedupFrom_sorted_chain xs x h.2 h.1

theorem dedupFrom_none_nodup (l : List Nat) (h : l.Sorted (· ≤ ·)) :
    (dedupFrom none l).Nodup := by
  have hc := dedupFrom_none_chain l h
  rw [List.chain'_iff_pairwise] at hc
  exact hc.imp Nat.ne_of_lt

theorem hoursDays_sorted {d1 d2 : Nat} (hle : d1 ≤ d2) :
    ((hoursVisited d2 d1).map dayOf).Sorted (· ≤ ·) := by
  rw [hoursVisited_range hle, List.map_map]
  exact List.Pairwise.map _ (fun a b hab => by
    simp only [Function.comp_apply]
    exact Nat.div_le_div_right (by omega)) (List.pairwise_lt_range _)

theorem hoursDays_yearBound {d1 d2 : Nat} (hy : (civilOfDay (dayOf d2)).year ≤ 9999) :
    ∀ z ∈ (hoursVisited d2 d1).map dayOf, (civilOfDay z).year ≤ 9999 := by
  intro z hz
  rcases List.mem_map.mp hz with ⟨t, ht, rfl⟩
  exact le_trans
    (civil_year_mono (Nat.div_le_div_right (hoursVisited_le (d2 + 3600 - d1) d1 (le_refl _) t ht)))
    hy

theorem manifest_formula {outroot : String} {d1 d2 : Nat} (hle : d1 ≤ d2)
    (hy : (civilOfDay (dayOf d2)).year ≤ 9999) :
    manifestFold outroot (hoursVisited d2 d1) [] =
      (dedupFrom none ((hoursVisited d2 d1).map dayOf)).map
        (fun z => pathJoin outroot (ymdStr (civilOfDay z))) ∧
    (manifestFold outroot (hoursVisited d2 d1) []).Nodup := by
  have hyb : ∀ z ∈ (hoursVisited d2 d1).map dayOf, (civilOfDay z).year ≤ 9999 :=
    hoursDays_yearBound hy
  have hsort := hoursDays_sorted hle
  have hmapdays : (hoursVisited d2 d1).map dayStr =
      ((hoursVisited d2 d1).map dayOf).map (fun z => ymdStr (civilOfDay z)) := by
    rw [List.map_map]
    rfl
  have hinj : ∀ a b : Nat,
      (a ∈ (hoursVisited d2 d1).map dayOf ∨ (none : Option Nat) = some a) →
      (b ∈ (hoursVisited d2 d1).map dayOf ∨ (none : Option Nat) = some b) →
      ymdStr (civilOfDay a) = ymdStr (civilOfDay b) → a = b := by
    intro a b ha hb hab
    rcases ha with ha | ha
    · rcases hb with hb | hb
      · exact dayRender_inj (hyb a ha) (hyb b hb) hab
      · exact absurd hb (by simp)
    · exact absurd ha (by simp)
  have hdm := dedupFrom_map (fun z => ymdStr (civilOfDay z))
    ((hoursVisited d2 d1).map dayOf) none hinj
  simp only [Option.map_none'] at hdm
  have hmain : manifestFold outroot (hoursVisited d2 d1) [] =
      (dedupFrom none ((hoursVisited d2 d1).map dayOf)).map
        (fun z => pathJoin outroot (ymdStr (civilOfDay z))) := by
    rw [manifestFold_nilAcc, hmapdays, hdm, List.map_map]
    rfl
  refine ⟨hmain, ?_⟩
  rw [hmain]
  apply List.Nodup.map_on ?_ (dedupFrom_none_nodup _ hsort)
  intro x hx y hy2 hxy
  have hx' := dedupFrom_subset _ _ _ hx
  have hy' := dedupFrom_subset _ _ _ hy2
  exact dayRender_inj (hyb x hx') (hyb y hy') (pathJoin_inj hxy)

/-! ### The historical run (no spin-waits) returns normally when the local
copy is kept (`del_local = false`) -/

/-- state transformer of the backfill loop when `del_local = false` (the
loop then never raises) -/
def backfillStF (cfg : Config) (bucket : String) (t : Nat) : List String → St → St
  | [], s => s
  | i :: rest, s =>
    let s := { s with outfile := some (pathJoin (outdirOf cfg.outroot t "glm") (basename i)),
                      evs := s.evs ++ [.download bucket i (outdirOf cfg.outroot t "glm")] }
    let s :=
      match cfg.gcs_bucket with
      | some g => emit s (.copy bucket i g (pathJoin (dayStr t) "glm" ++
          basename (pathJoin (outdirOf cfg.outroot t "glm") (basename i))))
      | none => s
    backfillStF cfg bucket t rest s

theorem backfillLoop_delFalse (cfg : Config) (bucket : String) (t : Nat)
    (hdel : cfg.del_local = false) :
    ∀ (l : List String) (s : St),
      backfillLoop cfg bucket t l s = .ok () (backfillStF cfg bucket t l s) := by
  intro l
  induction l with
  | nil => intro s; rfl
  | cons i rest ih =>
    intro s
    unfold backfillLoop backfillStF
    rw [if_pos hdel]
    cases hg : cfg.gcs_bucket with
    | none => exact ih _
    | some g => exact ih _

/-- lift an `if` whose two branches are `ok` -/
theorem ite_ok {α : Type} (c : Prop) [Decidable c] (a a' : α) (b b' : St) :
    (if c then Out.ok a b else Out.ok a' b') =
      Out.ok (if c then a else a') (if c then b else b') := by
  split <;> rfl

theorem irStep_hist_ok (p : Ps) (t : Nat) (s : St) (hrt : p.rt = false) :
    ∃ f' s', irStep p t s = .ok f' s' := by
  unfold irStep listCall
  dsimp only
  rw [hrt]
  simp only [Bool.false_eq_true, and_false, if_false]
  by_cases hlen : (p.client.listGcs s.k p.bucket (hourPre p.ivProd t)
      ["C13", tStr t, p.sector0]).length > 0
  · rw [if_pos hlen]
    exact ⟨_, _, rfl⟩
  · rw [if_neg hlen]
    exact ⟨_, _, rfl⟩

theorem corrStep_hist_ok (p : Ps) (ch cat : String) (wmsg : Option String) (noMsg : String)
    (t : Nat) (filesIn : List String) (s : St) (hrt : p.rt = false) :
    ∃ f' s', corrStep p ch cat wmsg noMsg t filesIn s = .ok f' s' := by
  unfold corrStep listCall
  dsimp only
  rw [hrt]
  simp only [Bool.false_eq_true, false_and, if_false]
  by_cases hlen : (p.client.listGcs s.k p.bucket (hourPre p.ivProd t)
      [ch, tStr t, p.sector0]).length > 0
  · rw [if_pos hlen]
    exact ⟨_, _, rfl⟩
  · rw [if_neg hlen]
    exact ⟨_, _, rfl⟩

theorem glmStep_hist_ok (p : Ps) (t : Nat) (filesIn : List String) (s : St)
    (hrt : p.rt = false) (hdel : p.cfg.del_local = false) :
    ∃ f' s', glmStep p t filesIn s = .ok f' s' := by
  by_cases hglm : p.cfg.no_glm = false
  · unfold glmStep listCall
    rw [if_pos hglm, hrt]
    simp only [Bool.false_eq_true, if_false, and_false, false_and, and_true,
      backfillLoop_delFalse p.cfg p.bucket t hdel, ite_ok]
    exact ⟨_, _, rfl⟩
  · unfold glmStep
    rw [if_neg hglm]
    exact ⟨_, _, rfl⟩

theorem hourBody_hist_ok (p : Ps) (t : Nat) (filesIn : List String) (s : St)
    (hrt : p.rt = false) (hdel : p.cfg.del_local = false) :
    ∃ f' s', hourBody p t filesIn s = .ok f' s' := by
  unfold hourBody
  have step1 : ∃ f1 s1,
      (if p.cfg.no_ir = false then irStep p t s else .ok filesIn s) = .ok f1 s1 := by
    by_cases hir : p.cfg.no_ir = false
    · rw [if_pos hir]; exact irStep_hist_ok p t s hrt
    · rw [if_neg hir]; exact ⟨_, _, rfl⟩
  obtain ⟨f1, s1, h1⟩ := step1
  rw [h1]
  dsimp only
  have step2 : ∃ f2 s2,
      (if p.cfg.no_vis = false then
        corrStep p "C02" "vis" none "No VIS files found for " t f1 s1
      else .ok f1 s1) = .ok f2 s2 := by
    by_cases hv : p.cfg.no_vis = false
    · rw [if_pos hv]; exact corrStep_hist_ok p "C02" "vis" none _ t f1 s1 hrt
    · rw [if_neg hv]; exact ⟨_, _, rfl⟩
  obtain ⟨f2, s2, h2⟩ := step2
  rw [h2]
  dsimp only
  have step3 : ∃ f3 s3,
      (if p.cfg.no_irdiff = false then
        corrStep p "C08" "ir_diff" (some "Waiting for IR C08 files to be available online")
          "No 6.2 micron IR files found for " t f2 s2
      else .ok f2 s2) = .ok f3 s3 := by
    by_cases hdf : p.cfg.no_irdiff = false
    · rw [if_pos hdf]; exact corrStep_hist_ok p "C08" "ir_diff" _ _ t f2 s2 hrt
    · rw [if_neg hdf]; exact ⟨_, _, rfl⟩
  obtain ⟨f3, s3, h3⟩ := step3
  rw [h3]
  dsimp only
  exact glmStep_hist_ok p t f3 s3 hrt hdel

theorem mainLoop_hist_ok (p : Ps) (d2 : Nat) (hrt : p.rt = false)
    (hdel : p.cfg.del_local = false) :
    ∀ (n date : Nat) (acc files : List String) (s : St), d2 + 3600 - date ≤ n →
      ∃ m s', mainLoop p d2 date acc files s = .ok m s' := by
  intro n
  induction n with
  | zero =>
    intro date acc files s hle
    rw [mainLoop.eq_def, dif_neg (by omega : ¬ date ≤ d2)]
    exact ⟨_, _, rfl⟩
  | succ n ihn =>
    intro date acc files s hle
    rw [mainLoop.eq_def]
    by_cases hd : date ≤ d2
    · rw [dif_pos hd]
      obtain ⟨f1, s1, h1⟩ := hourBody_hist_ok p date files s hrt hdel
      rw [h1]
      exact ihn (date + 3600) (appendEntry p.cfg.outroot date acc) f1 s1 (by omega)
    · rw [dif_neg hd]
      exact ⟨_, _, rfl⟩

/-- real-time GLM selection result (lines 249-255, 277-280) -/
def glmRtKept (p : Ps) (t : Nat) (L L0 : List String) : List String :=
  takeLast (glmCount p.sector0) L ++
    (if dtMinute t < 3 then L0.drop (8 - 3 * dtMinute t) else [])

/-- events of the real-time GLM block -/
def glmRtEvs (p : Ps) (t : Nat) (L L0 : List String) : List Ev :=
  [.listed p.bucket (hourPre "GLM-L2-LCFA" t) ["GLM", tStr t]] ++
  (if L.length > 0 then [.mkdir (outdirOf p.cfg.outroot t "glm")]
   else [.print ("No GLM files found for " ++ dtLongStr t)]) ++
  (if dtMinute t < 3 then
    [.listed p.bucket (hourPre "GLM-L2-LCFA" (t - 3600)) ["GLM", tStr (t - 3600)]] ++
      (if L0.length > 0 then [.mkdir (outdirOf p.cfg.outroot t "glm")] else [])
   else []) ++
  (if p.cfg.del_local = false then
    (glmRtKept p t L L0).map
      (fun i => .pdownload poolSize p.bucket i (outdirOf p.cfg.outroot t "glm"))
   else []) ++
  (match p.cfg.gcs_bucket with
   | some g => (glmRtKept p t L L0).map (fun i => .copy p.bucket i g (joinKey t "glm" i))
   | none => [])

theorem takeLast_nil {α : Type} (n : Nat) : takeLast n ([] : List α) = [] := by simp [takeLast]

theorem glmStep_rt (p : Ps) (t : Nat) (filesIn : List String) (s : St)
    (hrt : p.rt = true) (hglm : p.cfg.no_glm = false) :
    glmStep p t filesIn s =
      .ok (glmRtKept p t
            (p.client.listGcs s.k p.bucket (hourPre "GLM-L2-LCFA" t) ["GLM", tStr t])
            (p.client.listGcs (s.k + 1) p.bucket (hourPre "GLM-L2-LCFA" (t - 3600))
              ["GLM", tStr (t - 3600)]))
        { s with
          k := s.k + (if dtMinute t < 3 then 2 else 1),
          evs := s.evs ++ glmRtEvs p t
            (p.client.listGcs s.k p.bucket (hourPre "GLM-L2-LCFA" t) ["GLM", tStr t])
            (p.client.listGcs (s.k + 1) p.bucket (hourPre "GLM-L2-LCFA" (t - 3600))
              ["GLM", tStr (t - 3600)]) } := by
  unfold glmStep listCall
  rw [if_pos hglm, hrt]
  simp only [if_true]
  by_cases hm : dtMinute t < 3
  all_goals by_cases hL : (p.client.listGcs s.k p.bucket (hourPre "GLM-L2-LCFA" t)
      ["GLM", tStr t]) = []
  all_goals by_cases hL0 : (p.client.listGcs (s.k + 1) p.bucket
      (hourPre "GLM-L2-LCFA" (t - 3600)) ["GLM", tStr (t - 3600)]) = []
  all_goals simp only [glmRtKept, glmRtEvs, hm, hL, hL0, List.length_pos, ne_eq,
    not_false_iff, not_true, if_true, if_false, gt_iff_lt, emit, ite_ok, takeLast_nil,
    List.length_nil, lt_irrefl, Bool.true_eq_false, and_false, List.drop_nil,
    List.append_nil, List.nil_append, not_false_eq_true]
  all_goals by_cases hdel : p.cfg.del_local = false
  all_goals cases hg : p.cfg.gcs_bucket
  all_goals simp only [hdel, hg, if_true, if_false, Bool.false_eq_true]
  all_goals (simp only [Out.ok.injEq, St.mk.injEq]; and_intros <;>
    first
      | rfl
      | omega
      | simp [List.append_assoc])

/-! ### Spin-wait lemmas -/

theorem spinList_empty (client : Client) (bucket pre : String) (subs : List String)
    (h : ∀ k, client.listGcs k bucket pre subs = []) :
    ∀ (fuel : Nat) (s : St), spinList client bucket pre subs fuel s =
      .div { s with
        k := s.k + fuel,
        evs := s.evs ++ List.replicate fuel (.listed bucket pre subs) } := by
  intro fuel
  induction fuel with
  | zero => intro s; simp [spinList]
  | succ n ih =>
    intro s
    unfold spinList listCall
    dsimp only
    rw [h s.k]
    simp only [List.length_nil, gt_iff_lt, lt_irrefl, if_false]
    rw [ih]
    have hk : s.k + 1 + n = s.k + (n + 1) := by omega
    have he : (s.evs ++ [Ev.listed bucket pre subs]) ++
        List.replicate n (Ev.listed bucket pre subs) =
        s.evs ++ List.replicate (n + 1) (Ev.listed bucket pre subs) := by
      rw [List.replicate_succ, List.append_assoc]
      rfl
    rw [hk, he]

theorem spinList_ok (client : Client) (bucket pre : String) (subs : List String) :
    ∀ (fuel : Nat) (s : St) (files : List String) (s' : St),
      spinList client bucket pre subs fuel s = .ok files s' →
      files.length > 0 ∧ ∃ j, s.k ≤ j ∧ files = client.listGcs j bucket pre subs := by
  intro fuel
  induction fuel with
  | zero => intro s files s' h; simp [spinList] at h
  | succ n ih =>
    intro s files s' h
    unfold spinList listCall at h
    dsimp only at h
    by_cases hlen : (client.listGcs s.k bucket pre subs).length > 0
    · rw [if_pos hlen] at h
      injection h with h1 h2
      subst h1
      exact ⟨hlen, s.k, le_refl _, rfl⟩
    · rw [if_neg hlen] at h
      obtain ⟨hl, j, hj, hf⟩ := ih _ files s' h
      refine ⟨hl, j, ?_, hf⟩
      simp only [St.mk.injEq] at hj ⊢
      omega

/-- real-time IR step when the infrared listing is always empty: every retry
re-issues the identical query, and the step never completes (C2). -/
theorem irStep_rt_empty (p : Ps) (t : Nat) (s : St) (hrt : p.rt = true)
    (h : ∀ k, p.client.listGcs k p.bucket (hourPre p.ivProd t)
      ["C13", tStr t, p.sector0] = []) :
    irStep p t s = .div
      { s with
        k := s.k + 1 + p.fuel,
        evs := ((s.evs ++ [.listed p.bucket (hourPre p.ivProd t) ["C13", tStr t, p.sector0]]) ++
          [.print "Waiting for IR C13 files to be available online"]) ++
          List.replicate p.fuel
            (.listed p.bucket (hourPre p.ivProd t) ["C13", tStr t, p.sector0]) } := by
  unfold irStep listCall
  dsimp only
  rw [h s.k, hrt]
  simp only [List.length_nil, eq_self_iff_true, and_self, if_true]
  rw [spinList_empty _ _ _ _ h]
  simp [emit]

/-- real-time correlated VIS / 6.2 µm step when the correlated listing is
always empty: the retries re-issue the same correlated query (batch identifier
included) and the step never completes (C3 amended). -/
theorem corrStep_rt_empty (p : Ps) (ch cat : String) (wmsg : Option String) (noMsg : String)
    (t : Nat) (filesIn : List String) (s : St) (f0 fb : String)
    (hrt : p.rt = true) (hir : p.cfg.no_ir = false)
    (hf0 : filesIn.get? 0 = some f0) (hfb : batchId f0 = some fb)
    (h : ∀ k, p.client.listGcs k p.bucket (hourPre p.ivProd t)
      [ch, tStr t, p.sector0, fb] = []) :
    corrStep p ch cat wmsg noMsg t filesIn s = .div
      { s with
        k := s.k + 1 + p.fuel,
        evs := ((s.evs ++
          [.listed p.bucket (hourPre p.ivProd t) [ch, tStr t, p.sector0, fb]]) ++
          (match wmsg with | some m => [Ev.print m] | none => [])) ++
          List.replicate p.fuel
            (.listed p.bucket (hourPre p.ivProd t) [ch, tStr t, p.sector0, fb]) } := by
  unfold corrStep listCall
  dsimp only
  rw [if_pos (And.intro hrt hir), hf0]
  dsimp only
  rw [hfb]
  dsimp only
  rw [h s.k]
  simp only [List.length_nil, eq_self_iff_true, if_true]
  cases wmsg with
  | none =>
    rw [spinList_empty _ _ _ _ h]
    try simp [emit]
  | some m =>
    dsimp only [emit]
    rw [spinList_empty _ _ _ _ h]
    try simp [emit]

/-- final state of an outcome -/
def stOf {α : Type} : Out α → St
  | .ok _ s => s
  | .err _ s => s
  | .div s => s

theorem deliverLoop_evs (cfg : Config) (bucket cat : String) (t : Nat) :
    ∀ (l : List String) (s : St), ∃ tail,
      (deliverLoop cfg bucket cat t l s).evs = s.evs ++ tail := by
  intro l
  induction l with
  | nil => intro s; exact ⟨[], by simp [deliverLoop]⟩
  | cons i rest ih =>
    intro s
    unfold deliverLoop
    obtain ⟨tail, htail⟩ := ih _
    rw [htail]
    cases hdel : cfg.del_local
    all_goals cases hg : cfg.gcs_bucket
    all_goals simp [hdel, hg, emit]

theorem spinList_evs (client : Client) (bucket pre : String) (subs : List String) :
    ∀ (fuel : Nat) (s : St), ∃ tail,
      (stOf (spinList client bucket pre subs fuel s)).evs = s.evs ++ tail := by
  intro fuel
  induction fuel with
  | zero => intro s; exact ⟨[], by simp [spinList, stOf]⟩
  | succ n ih =>
    intro s
    unfold spinList listCall
    dsimp only
    by_cases hlen : (client.listGcs s.k bucket pre subs).length > 0
    · rw [if_pos hlen]
      exact ⟨[.listed bucket pre subs], rfl⟩
    · rw [if_neg hlen]
      obtain ⟨tail, htail⟩ := ih
        { s with k := s.k + 1, evs := s.evs ++ [.listed bucket pre subs] }
      exact ⟨[.listed bucket pre subs] ++ tail, by rw [htail]; simp⟩

theorem prefix_get (a : List Ev) (e : Ev) (tail : List Ev) :
    ((a ++ [e]) ++ tail).get? a.length = some e := by
  rw [List.get?_append (by simp), List.get?_concat_length]

/-- events of the continuation of the correlated step after its spin-wait -/
theorem corrTail_evs (p : Ps) (cat noMsg : String) (t : Nat) (P : List Ev)
    (bucket pre : String) (subs : List String) (fuel : Nat) (S1 : St)
    (h1 : ∃ t0, S1.evs = P ++ t0) :
    ∃ tail, (stOf (match spinList p.client bucket pre subs fuel S1 with
      | .ok files s2 =>
        if files.length > 0 then
          Out.ok (if p.rt = true then [files.getLastD ""] else files)
            (deliverLoop p.cfg p.bucket cat t
              (if p.rt = true then [files.getLastD ""] else files)
              (emit s2 (.mkdir (outdirOf p.cfg.outroot t cat))))
        else Out.ok files (emit s2 (.print (noMsg ++ dtLongStr t)))
      | .err e s2 => .err e s2
      | .div s2 => .div s2)).evs = P ++ tail := by
  obtain ⟨t0, h1⟩ := h1
  cases hs : spinList p.client bucket pre subs fuel S1 with
  | ok files s2 =>
    obtain ⟨t1, hsp⟩ := spinList_evs p.client bucket pre subs fuel S1
    rw [hs] at hsp
    dsimp only [stOf] at hsp
    dsimp only
    by_cases hl : files.length > 0
    · rw [if_pos hl]
      obtain ⟨t2, hd⟩ := deliverLoop_evs p.cfg p.bucket cat t
        (if p.rt = true then [files.getLastD ""] else files)
        (emit s2 (.mkdir (outdirOf p.cfg.outroot t cat)))
      dsimp only [stOf]
      rw [hd]
      dsimp only [emit]
      rw [hsp, h1]
      exact ⟨t0 ++ t1 ++ ([Ev.mkdir (outdirOf p.cfg.outroot t cat)] ++ t2), by simp⟩
    · rw [if_neg hl]
      dsimp only [stOf, emit]
      rw [hsp, h1]
      exact ⟨t0 ++ t1 ++ [Ev.print (noMsg ++ dtLongStr t)], by simp⟩
  | err e s2 =>
    obtain ⟨t1, hsp⟩ := spinList_evs p.client bucket pre subs fuel S1
    rw [hs] at hsp
    dsimp only [stOf] at hsp
    dsimp only [stOf]
    rw [hsp, h1]
    exact ⟨t0 ++ t1, by simp⟩
  | div s2 =>
    obtain ⟨t1, hsp⟩ := spinList_evs p.client bucket pre subs fuel S1
    rw [hs] at hsp
    dsimp only [stOf] at hsp
    dsimp only [stOf]
    rw [hsp, h1]
    exact ⟨t0 ++ t1, by simp⟩

/-- In real time with IR enabled, the first event of the VIS / 6.2 µm block is
a listing whose extra filter substring is exactly the batch identifier of
`filesIn[0]`, the most recently selected file of the preceding block
(C4 amended). -/
theorem corrStep_rt_query (p : Ps) (ch cat : String) (wmsg : Option String) (noMsg : String)
    (t : Nat) (filesIn : List String) (s : St) (f0 fb : String)
    (hrt : p.rt = true) (hir : p.cfg.no_ir = false)
    (hf0 : filesIn.get? 0 = some f0) (hfb : batchId f0 = some fb) :
    (stOf (corrStep p ch cat wmsg noMsg t filesIn s)).evs.get? s.evs.length =
      some (.listed p.bucket (hourPre p.ivProd t) [ch, tStr t, p.sector0, fb]) := by
  have key : ∃ tail, (stOf (corrStep p ch cat wmsg noMsg t filesIn s)).evs =
      (s.evs ++ [.listed p.bucket (hourPre p.ivProd t) [ch, tStr t, p.sector0, fb]]) ++ tail := by
    unfold corrStep listCall
    dsimp only
    rw [if_pos (And.intro hrt hir), hf0]
    dsimp only
    rw [hfb]
    dsimp only
    by_cases hlen : (p.client.listGcs s.k p.bucket (hourPre p.ivProd t)
        [ch, tStr t, p.sector0, fb]).length = 0
    · rw [if_pos hlen]
      apply corrTail_evs
      cases wmsg with
      | none => exact ⟨[], by simp⟩
      | some m => exact ⟨[Ev.print m], by simp [emit]⟩
    · rw [if_neg hlen]
      dsimp only
      by_cases hl1 : (p.client.listGcs s.k p.bucket (hourPre p.ivProd t)
          [ch, tStr t, p.sector0, fb]).length > 0
      · rw [if_pos hl1]
        obtain ⟨t2, hd⟩ := deliverLoop_evs p.cfg p.bucket cat t
          (if p.rt = true then
            [(p.client.listGcs s.k p.bucket (hourPre p.ivProd t)
              [ch, tStr t, p.sector0, fb]).getLastD ""]
          else p.client.listGcs s.k p.bucket (hourPre p.ivProd t) [ch, tStr t, p.sector0, fb])
          (emit { s with
            k := s.k + 1,
            evs := s.evs ++ [.listed p.bucket (hourPre p.ivProd t)
              [ch, tStr t, p.sector0, fb]] } (.mkdir (outdirOf p.cfg.outroot t cat)))
        dsimp only [stOf]
        rw [hd]
        dsimp only [emit]
        exact ⟨[Ev.mkdir (outdirOf p.cfg.outroot t cat)] ++ t2, by simp⟩
      · rw [if_neg hl1]
        dsimp only [stOf, emit]
        exact ⟨[Ev.print (noMsg ++ dtLongStr t)], by simp⟩
  obtain ⟨tail, htail⟩ := key
  rw [htail]
  exact prefix_get _ _ _

theorem mainLoop_div (p : Ps) (d2 date : Nat) (acc files : List String) (s s1 : St)
    (hd : date ≤ d2) (hbody : hourBody p date files s = .div s1) :
    mainLoop p d2 date acc files s = .div s1 := by
  rw [mainLoop.eq_def, dif_pos hd, hbody]

theorem hourBody_ir_div (p : Ps) (t : Nat) (filesIn : List String) (s s1 : St)
    (hir : p.cfg.no_ir = false) (hdiv : irStep p t s = .div s1) :
    hourBody p t filesIn s = .div s1 := by
  unfold hourBody
  rw [if_pos hir, hdiv]

/-! ### Run-level helpers -/

theorem run_rt (cfg : Config) (client : Client) (now fuel : Nat)
    (c : Char) (rest : List Char) (hsec : cfg.sector.data = c :: rest)
    (sector0 : String) (hcode : sectorCode cfg.sector = some sector0)
    (hd1 : cfg.date1 = none) :
    run cfg client now fuel =
      mainLoop ⟨cfg, client, true, "gcp-public-data-" ++ String.map Char.toLower cfg.sat,
        sector0, "ABI-L1b-Rad" ++ String.mk [c.toUpper], fuel⟩
        (rtAdjust sector0 now) (rtAdjust sector0 now) [] [] ⟨0, none, []⟩ := by
  unfold run
  rw [hsec]
  dsimp only
  rw [hcode]
  dsimp only
  rw [hd1]

theorem run_hist (cfg : Config) (client : Client) (now fuel : Nat)
    (c : Char) (rest : List Char) (hsec : cfg.sector.data = c :: rest)
    (sector0 : String) (hcode : sectorCode cfg.sector = some sector0)
    (d1 : Nat) (hd1 : cfg.date1 = some d1) :
    run cfg client now fuel =
      mainLoop ⟨cfg, client, false, "gcp-public-data-" ++ String.map Char.toLower cfg.sat,
        sector0, "ABI-L1b-Rad" ++ String.mk [c.toUpper], fuel⟩
        (cfg.date2.getD d1) d1 [] [] ⟨0, none, []⟩ := by
  unfold run
  rw [hsec]
  dsimp only
  rw [hcode]
  dsimp only
  rw [hd1]

theorem mainLoop_once (p : Ps) (d : Nat) (acc files : List String) (s : St) :
    mainLoop p d d acc files s =
      match hourBody p d files s with
      | .err e s1 => .err e s1
      | .div s1 => .div s1
      | .ok _ s1 => .ok (appendEntry p.cfg.outroot d acc) s1 := by
  rw [mainLoop.eq_def, dif_pos (le_refl d)]
  cases hb : hourBody p d files s with
  | err e s1 => rfl
  | div s1 => rfl
  | ok f1 s1 =>
    dsimp only
    rw [mainLoop.eq_def, dif_neg (by omega : ¬ d + 3600 ≤ d)]

theorem mainLoop_err (p : Ps) (d2 date : Nat) (acc files : List String) (s s1 : St) (e : Err)
    (hd : date ≤ d2) (hbody : hourBody p date files s = .err e s1) :
    mainLoop p d2 date acc files s = .err e s1 := by
  rw [mainLoop.eq_def, dif_pos hd, hbody]

/-- real-time full-disk adjustment leaves the cursor minute at 10 or more -/
theorem rtAdjust_F_minute (now : Nat) (h : 3600 ≤ now) :
    10 ≤ dtMinute (rtAdjust "F" now) := by
  unfold rtAdjust
  rw [if_pos (Or.inl rfl)]
  by_cases hm : dtMinute now < 10
  · rw [if_pos ⟨hm, rfl⟩]
    unfold dtMinute at hm ⊢
    omega
  · rw [if_neg (fun hc => hm hc.1),
      if_neg (fun hc => absurd hc.2 (by decide : ("F" : String) ≠ "C"))]
    omega

theorem takeLast_length_le {α : Type} (n : Nat) (l : List α) :
    (takeLast n l).length ≤ n := by
  unfold takeLast
  rw [List.length_drop]
  omega

theorem takeLast_ne_nil {α : Type} (n : Nat) (l : List α) (hn : 0 < n) (hl : l ≠ []) :
    takeLast n l ≠ [] := by
  unfold takeLast
  intro hcon
  have h1 : l.length - (l.length - n) = 0 := by
    have := congrArg List.length hcon
    rw [List.length_drop] at this
    simpa using this
  have h2 : 0 < l.length := List.length_pos.mpr hl
  omega

def isDownloadEv : Ev → Bool
  | .download _ _ _ => true
  | _ => false

def isPdlEv : Ev → Bool
  | .pdownload _ _ _ _ => true
  | _ => false

theorem filter_pdl_map_pdl (b od : String) (l : List String) :
    (l.map (fun i => Ev.pdownload poolSize b i od)).filter isPdlEv =
      l.map (fun i => Ev.pdownload poolSize b i od) := by
  rw [List.filter_eq_self]
  intro a ha
  rcases List.mem_map.mp ha with ⟨i, _, rfl⟩
  rfl

theorem glmRtEvs_mem (p : Ps) (t : Nat) (L L0 : List String) (e : Ev)
    (he : e ∈ glmRtEvs p t L L0) :
    e = .listed p.bucket (hourPre "GLM-L2-LCFA" t) ["GLM", tStr t] ∨
    e = .mkdir (outdirOf p.cfg.outroot t "glm") ∨
    e = .print ("No GLM files found for " ++ dtLongStr t) ∨
    e = .listed p.bucket (hourPre "GLM-L2-LCFA" (t - 3600)) ["GLM", tStr (t - 3600)] ∨
    (∃ i, i ∈ glmRtKept p t L L0 ∧
      e = .pdownload poolSize p.bucket i (outdirOf p.cfg.outroot t "glm")) ∨
    (∃ i, i ∈ glmRtKept p t L L0 ∧ ∃ g, p.cfg.gcs_bucket = some g ∧
      e = .copy p.bucket i g (joinKey t "glm" i)) := by
  unfold glmRtEvs at he
  rcases List.mem_append.mp he with he | h
  · rcases List.mem_append.mp he with he | h
    · rcases List.mem_append.mp he with he | h
      · rcases List.mem_append.mp he with h | h
        · simp at h
          exact Or.inl h
        · by_cases hL : L.length > 0
          · rw [if_pos hL] at h
            simp at h
            exact Or.inr (Or.inl h)
          · rw [if_neg hL] at h
            simp at h
            exact Or.inr (Or.inr (Or.inl h))
      · by_cases hm : dtMinute t < 3
        · rw [if_pos hm] at h
          rcases List.mem_append.mp h with h | h
          · simp at h
            exact Or.inr (Or.inr (Or.inr (Or.inl h)))
          · by_cases hL0 : L0.length > 0
            · rw [if_pos hL0] at h
              simp at h
              exact Or.inr (Or.inl h)
            · rw [if_neg hL0] at h
              simp at h
        · rw [if_neg hm] at h
          simp at h
    · by_cases hdel : p.cfg.del_local = false
      · rw [if_pos hdel] at h
        rcases List.mem_map.mp h with ⟨i, hi, rfl⟩
        exact Or.inr (Or.inr (Or.inr (Or.inr (Or.inl ⟨i, hi, rfl⟩))))
      · rw [if_neg hdel] at h
        simp at h
  · rcases hgc : p.cfg.gcs_bucket with _ | g
    · rw [hgc] at h
      simp at h
    · rw [hgc] at h
      dsimp only at h
      rcases List.mem_map.mp h with ⟨i, hi, rfl⟩
      exact Or.inr (Or.inr (Or.inr (Or.inr (Or.inr ⟨i, hi, g, rfl, rfl⟩))))

theorem glmRtEvs_filter_pdl (p : Ps) (t : Nat) (L L0 : List String) :
    ((glmRtEvs p t L L0).filter isPdlEv).length ≤ (glmRtKept p t L L0).length := by
  unfold glmRtEvs
  simp only [List.filter_append, List.length_append]
  have h1 : ([Ev.listed p.bucket (hourPre "GLM-L2-LCFA" t) ["GLM", tStr t]]).filter isPdlEv
      = [] := rfl
  have h2 : ((if L.length > 0 then [Ev.mkdir (outdirOf p.cfg.outroot t "glm")]
      else [Ev.print ("No GLM files found for " ++ dtLongStr t)]).filter isPdlEv) = [] := by
    split <;> rfl
  have h3 : ((if dtMinute t < 3 then
      [Ev.listed p.bucket (hourPre "GLM-L2-LCFA" (t - 3600)) ["GLM", tStr (t - 3600)]] ++
        (if L0.length > 0 then [Ev.mkdir (outdirOf p.cfg.outroot t "glm")] else [])
      else []).filter isPdlEv) = [] := by
    split
    · rw [List.filter_append]
      split <;> rfl
    · rfl
  have h4 : ((if p.cfg.del_local = false then
      (glmRtKept p t L L0).map
        (fun i => Ev.pdownload poolSize p.bucket i (outdirOf p.cfg.outroot t "glm"))
      else []).filter isPdlEv).length ≤ (glmRtKept p t L L0).length := by
    split
    · rw [filter_pdl_map_pdl]
      simp
    · simp
  have h5 : ((match p.cfg.gcs_bucket with
      | some g => (glmRtKept p t L L0).map
          (fun i => Ev.copy p.bucket i g (joinKey t "glm" i))
      | none => []).filter isPdlEv) = [] := by
    split
    · rw [List.filter_eq_nil]
      intro a ha
      rcases List.mem_map.mp ha with ⟨i, _, rfl⟩
      simp [isPdlEv]
    · rfl
  rw [h1, h2, h3, h5]
  simpa using h4

theorem glmRtEvs_no_download (p : Ps) (t : Nat) (L L0 : List String) (e : Ev)
    (he : e ∈ glmRtEvs p t L L0) : isDownloadEv e = false := by
  rcases glmRtEvs_mem p t L L0 e he with h | h | h | h | ⟨i, _, h⟩ | ⟨i, _, g, _, h⟩ <;>
    subst h <;> rfl

/-! ### `del_local = true`: the Python local `outfile` is never assigned,
and the historical previous-hour backfill mirror step raises `NameError` -/

theorem deliverLoop_outfile_delTrue (cfg : Config) (bucket cat : String) (t : Nat)
    (hdel : cfg.del_local = true) :
    ∀ (l : List String) (s : St), (deliverLoop cfg bucket cat t l s).outfile = s.outfile := by
  intro l
  induction l with
  | nil => intro s; rfl
  | cons i rest ih =>
    intro s
    unfold deliverLoop
    rw [hdel]
    simp only [Bool.true_eq_false, if_false]
    cases hg : cfg.gcs_bucket with
    | none =>
      dsimp only
      exact ih s
    | some g =>
      dsimp only
      rw [ih]
      rfl

theorem irStep_hist_pres (p : Ps) (t : Nat) (s : St) (hrt : p.rt = false)
    (hdel : p.cfg.del_local = true) :
    ∃ f' s', irStep p t s = .ok f' s' ∧ s'.outfile = s.outfile := by
  unfold irStep listCall
  dsimp only
  rw [hrt]
  simp only [Bool.false_eq_true, and_false, if_false]
  by_cases hlen : (p.client.listGcs s.k p.bucket (hourPre p.ivProd t)
      ["C13", tStr t, p.sector0]).length > 0
  · rw [if_pos hlen]
    refine ⟨_, _, rfl, ?_⟩
    rw [deliverLoop_outfile_delTrue p.cfg p.bucket "ir" t hdel]
    rfl
  · rw [if_neg hlen]
    exact ⟨_, _, rfl, rfl⟩

theorem corrStep_hist_pres (p : Ps) (ch cat : String) (wmsg : Option String) (noMsg : String)
    (t : Nat) (filesIn : List String) (s : St) (hrt : p.rt = false)
    (hdel : p.cfg.del_local = true) :
    ∃ f' s', corrStep p ch cat wmsg noMsg t filesIn s = .ok f' s' ∧
      s'.outfile = s.outfile := by
  unfold corrStep listCall
  dsimp only
  rw [hrt]
  simp only [Bool.false_eq_true, false_and, if_false]
  by_cases hlen : (p.client.listGcs s.k p.bucket (hourPre p.ivProd t)
      [ch, tStr t, p.sector0]).length > 0
  · rw [if_pos hlen]
    refine ⟨_, _, rfl, ?_⟩
    rw [deliverLoop_outfile_delTrue p.cfg p.bucket cat t hdel]
    rfl
  · rw [if_neg hlen]
    exact ⟨_, _, rfl, rfl⟩

theorem backfillLoop_nameError (cfg : Config) (bucket : String) (t : Nat) (g : String)
    (hdel : cfg.del_local = true) (hg : cfg.gcs_bucket = some g)
    (i : String) (rest : List String) (s : St) (hout : s.outfile = none) :
    backfillLoop cfg bucket t (i :: rest) s = .err .nameError s := by
  unfold backfillLoop
  rw [hdel]
  simp only [Bool.true_eq_false, if_false]
  rw [hg]
  dsimp only
  rw [hout]

theorem glmStep_c10 (p : Ps) (t : Nat) (filesIn : List String) (s : St)
    (hrt : p.rt = false) (hglm : p.cfg.no_glm = false) (hdel : p.cfg.del_local = true)
    (g : String) (hg : p.cfg.gcs_bucket = some g) (hm : dtMinute t < 3)
    (hout : s.outfile = none)
    (hL0 : ∀ k, p.client.listGcs k p.bucket (hourPre "GLM-L2-LCFA" (t - 3600))
      ["GLM", tStr (t - 3600)] ≠ []) :
    ∃ s', glmStep p t filesIn s = .err .nameError s' := by
  unfold glmStep listCall
  rw [if_pos hglm, hrt]
  simp only [Bool.false_eq_true, if_false, and_false, false_and, and_true]
  by_cases hL : (p.client.listGcs s.k p.bucket (hourPre "GLM-L2-LCFA" t)
      ["GLM", tStr t]).length > 0
  · rw [if_pos hL]
    try dsimp only
    rw [if_pos hm, if_pos (List.length_pos.mpr (hL0 _))]
    try dsimp only
    obtain ⟨i, rest, hcons⟩ : ∃ i rest,
        takeLast 8 (p.client.listGcs (deliverLoop p.cfg p.bucket "glm" t
          (p.client.listGcs s.k p.bucket (hourPre "GLM-L2-LCFA" t) ["GLM", tStr t])
          (emit { s with
            k := s.k + 1,
            evs := s.evs ++ [.listed p.bucket (hourPre "GLM-L2-LCFA" t) ["GLM", tStr t]] }
            (.mkdir (outdirOf p.cfg.outroot t "glm")))).k p.bucket
          (hourPre "GLM-L2-LCFA" (t - 3600)) ["GLM", tStr (t - 3600)]) = i :: rest := by
      cases hc : takeLast 8 (p.client.listGcs (deliverLoop p.cfg p.bucket "glm" t
          (p.client.listGcs s.k p.bucket (hourPre "GLM-L2-LCFA" t) ["GLM", tStr t])
          (emit { s with
            k := s.k + 1,
            evs := s.evs ++ [.listed p.bucket (hourPre "GLM-L2-LCFA" t) ["GLM", tStr t]] }
            (.mkdir (outdirOf p.cfg.outroot t "glm")))).k p.bucket
          (hourPre "GLM-L2-LCFA" (t - 3600)) ["GLM", tStr (t - 3600)]) with
      | nil => exact absurd hc (takeLast_ne_nil _ _ (by omega) (hL0 _))
      | cons a b => exact ⟨a, b, rfl⟩
    rw [hcons, backfillLoop_nameError p.cfg p.bucket t g hdel hg i rest _ (by
      dsimp only [emit]
      rw [deliverLoop_outfile_delTrue p.cfg p.bucket "glm" t hdel]
      exact hout)]
    exact ⟨_, rfl⟩
  · rw [if_neg hL]
    try dsimp only
    rw [if_pos hm, if_pos (List.length_pos.mpr (hL0 _))]
    try dsimp only
    obtain ⟨i, rest, hcons⟩ : ∃ i rest,
        takeLast 8 (p.client.listGcs (emit { s with
            k := s.k + 1,
            evs := s.evs ++ [.listed p.bucket (hourPre "GLM-L2-LCFA" t) ["GLM", tStr t]] }
            (.print ("No GLM files found for " ++ dtLongStr t))).k p.bucket
          (hourPre "GLM-L2-LCFA" (t - 3600)) ["GLM", tStr (t - 3600)]) = i :: rest := by
      cases hc : takeLast 8 (p.client.listGcs (emit { s with
            k := s.k + 1,
            evs := s.evs ++ [.listed p.bucket (hourPre "GLM-L2-LCFA" t) ["GLM", tStr t]] }
            (.print ("No GLM files found for " ++ dtLongStr t))).k p.bucket
          (hourPre "GLM-L2-LCFA" (t - 3600)) ["GLM", tStr (t - 3600)]) with
      | nil => exact absurd hc (takeLast_ne_nil _ _ (by omega) (hL0 _))
      | cons a b => exact ⟨a, b, rfl⟩
    rw [hcons, backfillLoop_nameError p.cfg p.bucket t g hdel hg i rest _ (by
      dsimp only [emit]
      exact hout)]
    exact ⟨_, rfl⟩

/-! ### Mirror-copy destination keys (C9) -/

theorem deliverLoop_copy_mem (cfg : Config) (bucket cat : String) (t : Nat) (g : String)
    (hg : cfg.gcs_bucket = some g) :
    ∀ (l : List String) (s : St), ∀ i ∈ l,
      Ev.copy bucket i g (joinKey t cat i) ∈ (deliverLoop cfg bucket cat t l s).evs := by
  intro l
  induction l with
  | nil => intro s i hi; simp at hi
  | cons j rest ih =>
    intro s i hi
    unfold deliverLoop
    rw [hg]
    dsimp only
    rcases List.mem_cons.mp hi with h | hi2
    · subst h
      obtain ⟨tail, htail⟩ := deliverLoop_evs cfg bucket cat t rest _
      rw [htail]
      by_cases hdel : cfg.del_local = false
      · simp [hdel, emit]
      · simp [hdel, emit]
    · exact ih _ i hi2

theorem deliverLoop_evs_shape (cfg : Config) (bucket cat : String) (t : Nat) :
    ∀ (l : List String) (s : St), ∀ e ∈ (deliverLoop cfg bucket cat t l s).evs,
      e ∈ s.evs ∨
      (∃ i, i ∈ l ∧ e = .download bucket i (outdirOf cfg.outroot t cat)) ∨
      (∃ i, i ∈ l ∧ ∃ g, cfg.gcs_bucket = some g ∧ e = .copy bucket i g (joinKey t cat i)) := by
  intro l
  induction l with
  | nil => intro s e he; exact Or.inl he
  | cons j rest ih =>
    intro s e he
    unfold deliverLoop at he
    rcases ih _ e he with h | ⟨i, hi, h⟩ | ⟨i, hi, g, hgg, h⟩
    · by_cases hdel : cfg.del_local = false
      · rcases hgc : cfg.gcs_bucket with _ | g
        · rw [hgc] at h
          rw [if_pos hdel] at h
          dsimp only at h
          rcases List.mem_append.mp h with h2 | h2
          · exact Or.inl h2
          · simp at h2
            exact Or.inr (Or.inl ⟨j, List.mem_cons_self j rest, h2⟩)
        · rw [hgc] at h
          rw [if_pos hdel] at h
          dsimp only [emit] at h
          rcases List.mem_append.mp h with h2 | h2
          · rcases List.mem_append.mp h2 with h3 | h3
            · exact Or.inl h3
            · simp at h3
              exact Or.inr (Or.inl ⟨j, List.mem_cons_self j rest, h3⟩)
          · simp at h2
            exact Or.inr (Or.inr ⟨j, List.mem_cons_self j rest, g, rfl, h2⟩)
      · rcases hgc : cfg.gcs_bucket with _ | g
        · rw [hgc] at h
          rw [if_neg hdel] at h
          exact Or.inl h
        · rw [hgc] at h
          rw [if_neg hdel] at h
          dsimp only [emit] at h
          rcases List.mem_append.mp h with h2 | h2
          · exact Or.inl h2
          · simp at h2
            exact Or.inr (Or.inr ⟨j, List.mem_cons_self j rest, g, rfl, h2⟩)
    · exact Or.inr (Or.inl ⟨i, List.mem_cons_of_mem j hi, h⟩)
    · exact Or.inr (Or.inr ⟨i, List.mem_cons_of_mem j hi, g, hgg, h⟩)

theorem backfillStF_evs (cfg : Config) (bucket : String) (t : Nat) :
    ∀ (l : List String) (s : St), ∃ tail,
      (backfillStF cfg bucket t l s).evs = s.evs ++ tail := by
  intro l
  induction l with
  | nil => intro s; exact ⟨[], by simp [backfillStF]⟩
  | cons j rest ih =>
    intro s
    unfold backfillStF
    obtain ⟨tail, htail⟩ := ih _
    rw [htail]
    cases hg : cfg.gcs_bucket
    all_goals simp [hg, emit]

theorem backfillStF_copy_mem (cfg : Config) (bucket : String) (t : Nat) (g : String)
    (hg : cfg.gcs_bucket = some g) :
    ∀ (l : List String) (s : St), ∀ i ∈ l,
      Ev.copy bucket i g (pathJoin (dayStr t) "glm" ++ basename i) ∈
        (backfillStF cfg bucket t l s).evs := by
  intro l
  induction l with
  | nil => intro s i hi; simp at hi
  | cons j rest ih =>
    intro s i hi
    unfold backfillStF
    rw [hg]
    dsimp only
    rcases List.mem_cons.mp hi with h | hi2
    · subst h
      obtain ⟨tail, htail⟩ := backfillStF_evs cfg bucket t rest _
      rw [htail]
      rw [basename_pathJoin _ _ (basename_noSlash i)]
      simp [emit]
    · exact ih _ i hi2

theorem backfillStF_evs_shape (cfg : Config) (bucket : String) (t : Nat) :
    ∀ (l : List String) (s : St), ∀ e ∈ (backfillStF cfg bucket t l s).evs,
      e ∈ s.evs ∨
      (∃ i, i ∈ l ∧ e = .download bucket i (outdirOf cfg.outroot t "glm")) ∨
      (∃ i, i ∈ l ∧ ∃ g, cfg.gcs_bucket = some g ∧
        e = .copy bucket i g (pathJoin (dayStr t) "glm" ++ basename i)) := by
  intro l
  induction l with
  | nil => intro s e he; exact Or.inl he
  | cons j rest ih =>
    intro s e he
    unfold backfillStF at he
    rcases ih _ e he with h | ⟨i, hi, h⟩ | ⟨i, hi, g, hgg, h⟩
    · rcases hgc : cfg.gcs_bucket with _ | g
      · rw [hgc] at h
        dsimp only at h
        rcases List.mem_append.mp h with h2 | h2
        · exact Or.inl h2
        · simp at h2
          exact Or.inr (Or.inl ⟨j, List.mem_cons_self j rest, h2⟩)
      · rw [hgc] at h
        dsimp only [emit] at h
        rcases List.mem_append.mp h with h2 | h2
        · rcases List.mem_append.mp h2 with h3 | h3
          · exact Or.inl h3
          · simp at h3
            exact Or.inr (Or.inl ⟨j, List.mem_cons_self j rest, h3⟩)
        · simp at h2
          rw [basename_pathJoin _ _ (basename_noSlash j)] at h2
          exact Or.inr (Or.inr ⟨j, List.mem_cons_self j rest, g, rfl, h2⟩)
    · exact Or.inr (Or.inl ⟨i, List.mem_cons_of_mem j hi, h⟩)
    · exact Or.inr (Or.inr ⟨i, List.mem_cons_of_mem j hi, g, hgg, h⟩)

/-! ### Claim theorems -/

theorem run_ok_manifest (cfg : Config) (client : Client) (now fuel : Nat) (d1 d2 : Nat)
    (h1 : cfg.date1 = some d1) (h2 : cfg.date2 = some d2) :
    ∀ m s, run cfg client now fuel = .ok m s →
      m = manifestFold cfg.outroot (hoursVisited d2 d1) [] := by
  intro m s hrun
  cases hsec : cfg.sector.data with
  | nil =>
    unfold run at hrun
    rw [hsec] at hrun
    simp at hrun
  | cons c rest =>
    cases hcode : sectorCode cfg.sector with
    | none =>
      unfold run at hrun
      rw [hsec] at hrun
      dsimp only at hrun
      rw [hcode] at hrun
      simp at hrun
    | some sec0 =>
      rw [run_hist cfg client now fuel c rest hsec sec0 hcode d1 h1] at hrun
      have hml := mainLoop_ok_manifest
        ⟨cfg, client, false, "gcp-public-data-" ++ String.map Char.toLower cfg.sat,
          sec0, "ABI-L1b-Rad" ++ String.mk [c.toUpper], fuel⟩
        (cfg.date2.getD d1) (cfg.date2.getD d1 + 3600 - d1) d1 [] [] ⟨0, none, []⟩ m s
        (le_refl _) hrun
      rw [h2] at hml
      simpa using hml

theorem run_hist_ok_exists (cfg : Config) (client : Client) (now fuel : Nat) (d1 : Nat)
    (h1 : cfg.date1 = some d1) (hdel : cfg.del_local = false)
    (hs : cfg.sector = "meso1" ∨ cfg.sector = "meso2" ∨ cfg.sector = "conus" ∨
      cfg.sector = "full") :
    ∃ m s, run cfg client now fuel = .ok m s := by
  rcases hs with hs | hs | hs | hs
  · rw [run_hist cfg client now fuel 'm' "eso1".data (by rw [hs]) "M1" (by rw [hs]; try rfl)
      d1 h1]
    exact mainLoop_hist_ok _ (cfg.date2.getD d1) rfl hdel _ d1 [] [] ⟨0, none, []⟩ (le_refl _)
  · rw [run_hist cfg client now fuel 'm' "eso2".data (by rw [hs]) "M2" (by rw [hs]; try rfl)
      d1 h1]
    exact mainLoop_hist_ok _ (cfg.date2.getD d1) rfl hdel _ d1 [] [] ⟨0, none, []⟩ (le_refl _)
  · rw [run_hist cfg client now fuel 'c' "onus".data (by rw [hs]) "C" (by rw [hs]; try rfl)
      d1 h1]
    exact mainLoop_hist_ok _ (cfg.date2.getD d1) rfl hdel _ d1 [] [] ⟨0, none, []⟩ (le_refl _)
  · rw [run_hist cfg client now fuel 'f' "ull".data (by rw [hs]) "F" (by rw [hs]; try rfl)
      d1 h1]
    exact mainLoop_hist_ok _ (cfg.date2.getD d1) rfl hdel _ d1 [] [] ⟨0, none, []⟩ (le_refl _)

/-- C1: For every historical run, a returned manifest holds exactly one entry
per distinct calendar day visited by the hourly cursor, in visitation order,
with no duplicates (entries are appended only when the `%Y%m%d` rendering
differs from the last entry's basename); and with `del_local = false` and a
valid sector the historical run does return a manifest. -/
theorem claim_C1 (cfg : Config) (client : Client) (now fuel : Nat) (d1 d2 : Nat)
    (h1 : cfg.date1 = some d1) (h2 : cfg.date2 = some d2) (hle : d1 ≤ d2)
    (hy : (civilOfDay (dayOf d2)).year ≤ 9999) :
    (∀ m s, run cfg client now fuel = .ok m s →
      m = (dedupFrom none ((hoursVisited d2 d1).map dayOf)).map
        (fun z => pathJoin cfg.outroot (ymdStr (civilOfDay z))) ∧ m.Nodup) ∧
    (cfg.del_local = false →
      (cfg.sector = "meso1" ∨ cfg.sector = "meso2" ∨ cfg.sector = "conus" ∨
        cfg.sector = "full") →
      ∃ m s, run cfg client now fuel = .ok m s) := by
  constructor
  · intro m s hrun
    have hm := run_ok_manifest cfg client now fuel d1 d2 h1 h2 m s hrun
    obtain ⟨hform, hnodup⟩ := @manifest_formula cfg.outroot d1 d2 hle hy
    exact ⟨hm.trans hform, hm ▸ hnodup⟩
  · intro hdel hs
    exact run_hist_ok_exists cfg client now fuel d1 h1 hdel hs

/-- C1 witness: a two-day window starting at the epoch with all categories
disabled. -/
theorem claim_C1_witness :
    (∀ m s, run ⟨some 0, some 90000, "o", "goes-16", "conus", true, true, true, true,
        none, false⟩ ⟨fun _ _ _ _ => []⟩ 0 0 = .ok m s →
      m = (dedupFrom none ((hoursVisited 90000 0).map dayOf)).map
        (fun z => pathJoin "o" (ymdStr (civilOfDay z))) ∧ m.Nodup) ∧
    (∃ m s, run ⟨some 0, some 90000, "o", "goes-16", "conus", true, true, true, true,
        none, false⟩ ⟨fun _ _ _ _ => []⟩ 0 0 = .ok m s) := by
  have h := claim_C1 ⟨some 0, some 90000, "o", "goes-16", "conus", true, true, true, true,
    none, false⟩ ⟨fun _ _ _ _ => []⟩ 0 0 0 90000 rfl rfl (by omega) (by decide)
  exact ⟨h.1, h.2 rfl (Or.inr (Or.inr (Or.inl rfl)))⟩

/-- C8: the historical hourly loop body executes exactly
`(end - start) / 3600 + 1` times: the cursor starts at `start`, advances by
3600 seconds per iteration, and stops as soon as it exceeds `end`; a returned
manifest is the fold of the manifest update over exactly那 cursor sequence. -/
theorem claim_C8 (cfg : Config) (client : Client) (now fuel : Nat) (d1 d2 : Nat)
    (h1 : cfg.date1 = some d1) (h2 : cfg.date2 = some d2) (hle : d1 ≤ d2) :
    (hoursVisited d2 d1).length = (d2 - d1) / 3600 + 1 ∧
    hoursVisited d2 d1 =
      (List.range ((d2 - d1) / 3600 + 1)).map (fun i => d1 + 3600 * i) ∧
    d1 + 3600 * ((d2 - d1) / 3600) ≤ d2 ∧
    d2 < d1 + 3600 * ((d2 - d1) / 3600) + 3600 ∧
    (∀ m s, run cfg client now fuel = .ok m s →
      m = manifestFold cfg.outroot (hoursVisited d2 d1) []) ∧
    (cfg.del_local = false →
      (cfg.sector = "meso1" ∨ cfg.sector = "meso2" ∨ cfg.sector = "conus" ∨
        cfg.sector = "full") →
      ∃ m s, run cfg client now fuel = .ok m s) := by
  refine ⟨?_, hoursVisited_range hle, by omega, by omega,
    run_ok_manifest cfg client now fuel d1 d2 h1 h2,
    fun hdel hs => run_hist_ok_exists cfg client now fuel d1 h1 hdel hs⟩
  rw [hoursVisited_range hle]
  simp

/-- C8 witness: `start = 0`, `end = 90000` gives 26 hourly iterations. -/
theorem claim_C8_witness :
    (hoursVisited 90000 0).length = 26 ∧
    (∃ m s, run ⟨some 0, some 90000, "o", "goes-16", "conus", true, true, true, true,
        none, false⟩ ⟨fun _ _ _ _ => []⟩ 0 0 = .ok m s) := by
  have h := claim_C8 ⟨some 0, some 90000, "o", "goes-16", "conus", true, true, true, true,
    none, false⟩ ⟨fun _ _ _ _ => []⟩ 0 0 0 90000 rfl rfl (by omega)
  exact ⟨h.1, h.2.2.2.2.2 rfl (Or.inr (Or.inr (Or.inl rfl)))⟩

/-- C2: in real-time mode with infrared enabled, an empty infrared listing
makes the orchestrator re-issue the identical listing query in a tight loop
with no backoff (the recorded listing events are all the same query); the spin
loop completes only when some listing is non-empty; and if the infrared
listing stays empty forever the whole run never terminates. -/
theorem claim_C2 :
    (∀ (p : Ps) (t : Nat) (s : St), p.rt = true →
      (∀ k, p.client.listGcs k p.bucket (hourPre p.ivProd t)
        ["C13", tStr t, p.sector0] = []) →
      irStep p t s = .div
        { s with
          k := s.k + 1 + p.fuel,
          evs := ((s.evs ++
            [.listed p.bucket (hourPre p.ivProd t) ["C13", tStr t, p.sector0]]) ++
            [.print "Waiting for IR C13 files to be available online"]) ++
            List.replicate p.fuel
              (.listed p.bucket (hourPre p.ivProd t) ["C13", tStr t, p.sector0]) }) ∧
    (∀ (client : Client) (bucket pre : String) (subs : List String) (fuel : Nat)
      (s : St) (files : List String) (s' : St),
      spinList client bucket pre subs fuel s = .ok files s' → 0 < files.length) ∧
    (∀ (cfg : Config) (client : Client) (now fuel : Nat),
      cfg.date1 = none → cfg.no_ir = false →
      (cfg.sector = "meso1" ∨ cfg.sector = "meso2" ∨ cfg.sector = "conus" ∨
        cfg.sector = "full") →
      (∀ k b pre subs, "C13" ∈ subs → client.listGcs k b pre subs = []) →
      ∃ s', run cfg client now fuel = .div s') := by
  refine ⟨irStep_rt_empty, ?_, ?_⟩
  · intro client bucket pre subs fuel s files s' h
    exact (spinList_ok client bucket pre subs fuel s files s' h).1
  · intro cfg client now fuel hd1 hir hs hall
    rcases hs with hs | hs | hs | hs
    · rw [run_rt cfg client now fuel 'm' "eso1".data (by rw [hs]) "M1" (by rw [hs]; try rfl)
        hd1]
      exact ⟨_, mainLoop_div _ _ _ _ _ _ _ (le_refl _)
        (hourBody_ir_div _ _ _ _ _ hir (irStep_rt_empty _ _ _ rfl
          (fun k => hall k _ _ _ (List.mem_cons_self _ _))))⟩
    · rw [run_rt cfg client now fuel 'm' "eso2".data (by rw [hs]) "M2" (by rw [hs]; try rfl)
        hd1]
      exact ⟨_, mainLoop_div _ _ _ _ _ _ _ (le_refl _)
        (hourBody_ir_div _ _ _ _ _ hir (irStep_rt_empty _ _ _ rfl
          (fun k => hall k _ _ _ (List.mem_cons_self _ _))))⟩
    · rw [run_rt cfg client now fuel 'c' "onus".data (by rw [hs]) "C" (by rw [hs]; try rfl)
        hd1]
      exact ⟨_, mainLoop_div _ _ _ _ _ _ _ (le_refl _)
        (hourBody_ir_div _ _ _ _ _ hir (irStep_rt_empty _ _ _ rfl
          (fun k => hall k _ _ _ (List.mem_cons_self _ _))))⟩
    · rw [run_rt cfg client now fuel 'f' "ull".data (by rw [hs]) "F" (by rw [hs]; try rfl)
        hd1]
      exact ⟨_, mainLoop_div _ _ _ _ _ _ _ (le_refl _)
        (hourBody_ir_div _ _ _ _ _ hir (irStep_rt_empty _ _ _ rfl
          (fun k => hall k _ _ _ (List.mem_cons_self _ _))))⟩

/-- C2 witness: a real-time run against an always-empty store diverges. -/
theorem claim_C2_witness :
    ∃ s', run ⟨none, none, "o", "goes-16", "meso1", true, true, false, true, none, false⟩
      ⟨fun _ _ _ _ => []⟩ 0 5 = .div s' :=
  claim_C2.2.2 ⟨none, none, "o", "goes-16", "meso1", true, true, false, true, none, false⟩
    ⟨fun _ _ _ _ => []⟩ 0 5 rfl rfl (Or.inl rfl) (fun _ _ _ _ _ => rfl)

/-- C7 counterexample: with the empty sector string the run dies of an
uncaught IndexError at `sector[0]` (line 124) before the unsupported-sector
diagnostic branch is reached, so no diagnostic print is recorded; the claim
promised a diagnostic for every string outside the valid set. -/
theorem claim_C7_cex :
    run ⟨some 0, some 0, "o", "goes-16", "", true, true, true, true, none, false⟩
      ⟨fun _ _ _ _ => []⟩ 0 0 = .err .indexError ⟨0, none, []⟩ := rfl

/-- C7 (amended): for the four valid sector identifiers the derived code is a
pure table lookup (M1, M2, C, F); for any other non-empty sector string the
run stops with exactly the two diagnostic prints and no listing or transfer
event; for the empty string, however, the run fails with an uncaught
IndexError and no diagnostic at all. -/
theorem claim_C7 :
    (sectorCode "meso1" = some "M1" ∧ sectorCode "meso2" = some "M2" ∧
      sectorCode "conus" = some "C" ∧ sectorCode "full" = some "F") ∧
    (∀ (cfg : Config) (client : Client) (now fuel : Nat),
      cfg.sector ≠ "meso1" → cfg.sector ≠ "meso2" → cfg.sector ≠ "conus" →
      cfg.sector ≠ "full" → cfg.sector ≠ "" →
      run cfg client now fuel = .err .badSector ⟨0, none,
        [.print "Not yet set up to do specified sector", .print cfg.sector]⟩) ∧
    (∀ (cfg : Config) (client : Client) (now fuel : Nat), cfg.sector = "" →
      run cfg client now fuel = .err .indexError ⟨0, none, []⟩) := by
  refine ⟨⟨by decide, by decide, by decide, by decide⟩, ?_, ?_⟩
  · intro cfg client now fuel h1 h2 h3 h4 h5
    have hcode : sectorCode cfg.sector = none := by
      unfold sectorCode
      rw [if_neg h1, if_neg h2, if_neg h3, if_neg h4]
    cases hsec : cfg.sector.data with
    | nil =>
      exact absurd (String.ext (hsec.trans rfl)) h5
    | cons c rest =>
      unfold run
      rw [hsec]
      dsimp only
      rw [hcode]
  · intro cfg client now fuel h
    unfold run
    rw [h]

/-- C7 witness: an invalid non-empty sector string yields exactly the two
diagnostic prints and nothing else. -/
theorem claim_C7_witness :
    run ⟨none, none, "o", "goes-16", "meso", true, true, true, true, none, false⟩
      ⟨fun _ _ _ _ => []⟩ 0 0 = .err .badSector ⟨0, none,
        [.print "Not yet set up to do specified sector", .print "meso"]⟩ :=
  claim_C7.2.1 ⟨none, none, "o", "goes-16", "meso", true, true, true, true, none, false⟩
    ⟨fun _ _ _ _ => []⟩ 0 0 (by decide) (by decide) (by decide) (by decide) (by decide)

/-- C3 counterexample: the correlated visible query (batch identifier "111")
always returns zero blobs while the uncorrelated query (no batch identifier)
has a blob available, yet the step spin-waits forever on the correlated query
— it never falls back to the uncorrelated one as the claim asserts. -/
theorem claim_C3_cex :
    corrStep ⟨⟨none, none, "o", "goes-16", "meso1", true, false, false, true, none, false⟩,
        ⟨fun _ _ _ subs => if subs = ["C02", tStr 0, "M1", "111"] then []
          else if subs = ["C02", tStr 0, "M1"] then ["d/vis.nc"] else []⟩,
        true, "b", "M1", "P", 3⟩
      "C02" "vis" none "No VIS files found for " 0
      ["d/OR_A_G16_s111_e1.nc"] ⟨0, none, []⟩ =
      .div ⟨4, none,
        [.listed "b" (hourPre "P" 0) ["C02", tStr 0, "M1", "111"],
         .listed "b" (hourPre "P" 0) ["C02", tStr 0, "M1", "111"],
         .listed "b" (hourPre "P" 0) ["C02", tStr 0, "M1", "111"],
         .listed "b" (hourPre "P" 0) ["C02", tStr 0, "M1", "111"]]⟩ ∧
    (fun _ _ _ subs => if subs = ["C02", tStr 0, "M1", "111"] then ([] : List String)
      else if subs = ["C02", tStr 0, "M1"] then ["d/vis.nc"] else [])
      0 "b" (hourPre "P" 0) ["C02", tStr 0, "M1"] = ["d/vis.nc"] := by
  constructor
  · decide
  · decide

/-- C3 (amended): in real-time mode with infrared enabled, when the correlated
visible (or secondary-infrared) listing query — the one carrying the batch
identifier — returns zero blobs, the orchestrator spin-waits by re-issuing the
same correlated query (the batch identifier appears in every retry); it never
switches to the uncorrelated query. -/
theorem claim_C3 (p : Ps) (ch cat : String) (wmsg : Option String) (noMsg : String)
    (t : Nat) (filesIn : List String) (s : St) (f0 fb : String)
    (hrt : p.rt = true) (hir : p.cfg.no_ir = false)
    (hf0 : filesIn.get? 0 = some f0) (hfb : batchId f0 = some fb)
    (h : ∀ k, p.client.listGcs k p.bucket (hourPre p.ivProd t)
      [ch, tStr t, p.sector0, fb] = []) :
    corrStep p ch cat wmsg noMsg t filesIn s = .div
      { s with
        k := s.k + 1 + p.fuel,
        evs := ((s.evs ++
          [.listed p.bucket (hourPre p.ivProd t) [ch, tStr t, p.sector0, fb]]) ++
          (match wmsg with | some m => [Ev.print m] | none => [])) ++
          List.replicate p.fuel
            (.listed p.bucket (hourPre p.ivProd t) [ch, tStr t, p.sector0, fb]) } :=
  corrStep_rt_empty p ch cat wmsg noMsg t filesIn s f0 fb hrt hir hf0 hfb h

/-- C3 witness: an always-empty store makes the correlated visible step
diverge, re-listing the same correlated query four times. -/
theorem claim_C3_witness :
    corrStep ⟨⟨none, none, "o", "goes-16", "meso1", true, false, false, true, none, false⟩,
        ⟨fun _ _ _ _ => []⟩, true, "b", "M1", "P", 3⟩
      "C02" "vis" none "No VIS files found for " 0
      ["d/OR_A_G16_s111_e1.nc"] ⟨0, none, []⟩ = .div
      { (⟨0, none, []⟩ : St) with
        k := 0 + 1 + 3,
        evs := (([] ++ [.listed "b" (hourPre "P" 0) ["C02", tStr 0, "M1", "111"]]) ++
          (match (none : Option String) with | some m => [Ev.print m] | none => [])) ++
          List.replicate 3 (.listed "b" (hourPre "P" 0) ["C02", tStr 0, "M1", "111"]) } :=
  claim_C3 ⟨⟨none, none, "o", "goes-16", "meso1", true, false, false, true, none, false⟩,
      ⟨fun _ _ _ _ => []⟩, true, "b", "M1", "P", 3⟩
    "C02" "vis" none "No VIS files found for " 0
    ["d/OR_A_G16_s111_e1.nc"] ⟨0, none, []⟩ "d/OR_A_G16_s111_e1.nc" "111"
    rfl rfl rfl (by decide) (fun _ => rfl)

/-- C4 counterexample: with the visible category enabled, the secondary
infrared (C08) correlated query carries the batch identifier "222" taken from
the just-selected *visible* blob, not the identifier "111" of the most
recently selected infrared blob, contradicting the claim that both correlated
queries use the infrared blob's identifier. -/
theorem claim_C4_cex :
    (Ev.listed "b" (hourPre "P" 0) ["C08", tStr 0, "M1", "222"] ∈
      (stOf (hourBody
        ⟨⟨none, none, "o", "goes-16", "meso1", true, false, false, false, none, false⟩,
          ⟨fun _ _ _ subs => if "C13" ∈ subs then ["d/OR_I_G16_s111_e.nc"]
            else ["d/OR_V_G16_s222_e.nc"]⟩,
          true, "b", "M1", "P", 3⟩ 0 [] ⟨0, none, []⟩)).evs) ∧
    (Ev.listed "b" (hourPre "P" 0) ["C08", tStr 0, "M1", "111"] ∉
      (stOf (hourBody
        ⟨⟨none, none, "o", "goes-16", "meso1", true, false, false, false, none, false⟩,
          ⟨fun _ _ _ subs => if "C13" ∈ subs then ["d/OR_I_G16_s111_e.nc"]
            else ["d/OR_V_G16_s222_e.nc"]⟩,
          true, "b", "M1", "P", 3⟩ 0 [] ⟨0, none, []⟩)).evs) ∧
    batchId "d/OR_I_G16_s111_e.nc" = some "111" ∧
    batchId "d/OR_V_G16_s222_e.nc" = some "222" := by
  refine ⟨by decide, by decide, by decide, by decide⟩

/-- C4 (amended): each real-time correlated query (visible and secondary
infrared alike) includes as its extra filter substring exactly the batch
identifier of `files[0]` of the list selected by the *immediately preceding*
enabled category — the infrared blob for the visible query, but the visible
blob for the secondary-infrared query when visible is enabled. -/
theorem claim_C4 (p : Ps) (ch cat : String) (wmsg : Option String) (noMsg : String)
    (t : Nat) (filesIn : List String) (s : St) (f0 fb : String)
    (hrt : p.rt = true) (hir : p.cfg.no_ir = false)
    (hf0 : filesIn.get? 0 = some f0) (hfb : batchId f0 = some fb) :
    (stOf (corrStep p ch cat wmsg noMsg t filesIn s)).evs.get? s.evs.length =
      some (.listed p.bucket (hourPre p.ivProd t) [ch, tStr t, p.sector0, fb]) :=
  corrStep_rt_query p ch cat wmsg noMsg t filesIn s f0 fb hrt hir hf0 hfb

/-- C4 witness: the first listing event issued by the correlated step for a
concrete input carries the batch identifier of the given file list's head. -/
theorem claim_C4_witness :
    (stOf (corrStep
      ⟨⟨none, none, "o", "goes-16", "meso1", true, false, false, false, none, false⟩,
        ⟨fun _ _ _ _ => ["d/x.nc"]⟩, true, "b", "M1", "P", 3⟩
      "C08" "ir_diff" (some "Waiting for IR C08 files to be available online")
      "No 6.2 micron IR files found for " 0
      ["d/OR_V_G16_s222_e.nc"] ⟨0, none, []⟩)).evs.get? 0 =
      some (.listed "b" (hourPre "P" 0) ["C08", tStr 0, "M1", "222"]) :=
  claim_C4 ⟨⟨none, none, "o", "goes-16", "meso1", true, false, false, false, none, false⟩,
      ⟨fun _ _ _ _ => ["d/x.nc"]⟩, true, "b", "M1", "P", 3⟩
    "C08" "ir_diff" (some "Waiting for IR C08 files to be available online")
    "No 6.2 micron IR files found for " 0
    ["d/OR_V_G16_s222_e.nc"] ⟨0, none, []⟩ "d/OR_V_G16_s222_e.nc" "222"
    rfl rfl rfl (by decide)

/-- C5: in real-time mode with lightning enabled, the GLM step keeps exactly
the trailing `glmCount` blobs of the current-hour listing — at most 10 for
meso sectors, 15 for CONUS, 30 for full disk — and the previous-hour backfill
slice is queried and appended if and only if the cursor minute is below 3
(the kept list carries the `drop (8 - 3*minute)` slice exactly when
minute < 3, and the extra previous-hour listing event is emitted then). -/
theorem claim_C5 (p : Ps) (t : Nat) (filesIn : List String) (s : St)
    (hrt : p.rt = true) (hglm : p.cfg.no_glm = false) :
    (glmStep p t filesIn s = .ok
      (takeLast (glmCount p.sector0)
          (p.client.listGcs s.k p.bucket (hourPre "GLM-L2-LCFA" t) ["GLM", tStr t]) ++
        (if dtMinute t < 3 then
          (p.client.listGcs (s.k + 1) p.bucket (hourPre "GLM-L2-LCFA" (t - 3600))
            ["GLM", tStr (t - 3600)]).drop (8 - 3 * dtMinute t)
         else []))
      { s with
        k := s.k + (if dtMinute t < 3 then 2 else 1),
        evs := s.evs ++ glmRtEvs p t
          (p.client.listGcs s.k p.bucket (hourPre "GLM-L2-LCFA" t) ["GLM", tStr t])
          (p.client.listGcs (s.k + 1) p.bucket (hourPre "GLM-L2-LCFA" (t - 3600))
            ["GLM", tStr (t - 3600)]) }) ∧
    (takeLast (glmCount p.sector0)
      (p.client.listGcs s.k p.bucket (hourPre "GLM-L2-LCFA" t)
        ["GLM", tStr t])).length ≤ glmCount p.sector0 ∧
    glmCount "M1" = 10 ∧ glmCount "M2" = 10 ∧ glmCount "C" = 15 ∧ glmCount "F" = 30 ∧
    (∀ L L0 : List String, dtMinute t < 3 →
      glmRtKept p t L L0 =
        takeLast (glmCount p.sector0) L ++ L0.drop (8 - 3 * dtMinute t)) ∧
    (∀ L L0 : List String, ¬ dtMinute t < 3 →
      glmRtKept p t L L0 = takeLast (glmCount p.sector0) L) ∧
    (∀ L L0 : List String, dtMinute t < 3 →
      Ev.listed p.bucket (hourPre "GLM-L2-LCFA" (t - 3600)) ["GLM", tStr (t - 3600)] ∈
        glmRtEvs p t L L0) := by
  refine ⟨?_, takeLast_length_le _ _, by decide, by decide, by decide, by decide,
    ?_, ?_, ?_⟩
  · rw [glmStep_rt p t filesIn s hrt hglm]
    rfl
  · intro L L0 hm
    simp [glmRtKept, hm]
  · intro L L0 hm
    simp [glmRtKept, hm]
  · intro L L0 hm
    unfold glmRtEvs
    refine List.mem_append.mpr (Or.inl (List.mem_append.mpr (Or.inl
      (List.mem_append.mpr (Or.inr ?_)))))
    rw [if_pos hm]
    exact List.mem_append.mpr (Or.inl (List.mem_singleton.mpr rfl))

/-- C5 witness: concrete CONUS-sector real-time GLM step obeys the bound and
the CONUS count is 15. -/
theorem claim_C5_witness :
    (takeLast (glmCount "C") ((⟨fun _ _ _ _ => ["a", "b", "c"]⟩ : Client).listGcs 0 "b"
      (hourPre "GLM-L2-LCFA" 45000) ["GLM", tStr 45000])).length ≤ glmCount "C" ∧
    glmCount "C" = 15 := by
  have h := claim_C5
    ⟨⟨none, none, "o", "goes-16", "conus", false, true, true, true, none, false⟩,
      ⟨fun _ _ _ _ => ["a", "b", "c"]⟩, true, "b", "C", "P", 3⟩
    45000 [] ⟨0, none, []⟩ rfl rfl
  exact ⟨h.2.1, h.2.2.2.2.1⟩

theorem hourBody_glm_only (p : Ps) (t : Nat) (filesIn : List String) (s : St)
    (hir : p.cfg.no_ir = true) (hvis : p.cfg.no_vis = true)
    (hdiff : p.cfg.no_irdiff = true) :
    hourBody p t filesIn s = glmStep p t filesIn s := by
  unfold hourBody
  rw [hir, hvis, hdiff]
  simp only [Bool.true_eq_false, if_false]

theorem mainLoop_rt_glm_only (p : Ps) (d : Nat)
    (hrt : p.rt = true) (hir : p.cfg.no_ir = true) (hvis : p.cfg.no_vis = true)
    (hdiff : p.cfg.no_irdiff = true) (hglm : p.cfg.no_glm = false) :
    mainLoop p d d [] [] ⟨0, none, []⟩ =
      .ok (appendEntry p.cfg.outroot d [])
        ⟨(if dtMinute d < 3 then 2 else 1), none,
          glmRtEvs p d
            (p.client.listGcs 0 p.bucket (hourPre "GLM-L2-LCFA" d) ["GLM", tStr d])
            (p.client.listGcs 1 p.bucket (hourPre "GLM-L2-LCFA" (d - 3600))
              ["GLM", tStr (d - 3600)])⟩ := by
  rw [mainLoop_once, hourBody_glm_only p d [] ⟨0, none, []⟩ hir hvis hdiff,
    glmStep_rt p d [] ⟨0, none, []⟩ hrt hglm]
  dsimp only
  simp

theorem glmRtKept_length_le (p : Ps) (d : Nat) (L L0 : List String)
    (hm3 : ¬ dtMinute d < 3) : (glmRtKept p d L L0).length ≤ glmCount p.sector0 := by
  unfold glmRtKept
  rw [if_neg hm3, List.append_nil]
  exact takeLast_length_le _ _

/-- C6: a real-time run with sector full and only lightning enabled downloads
no blob sequentially (no download event at all), performs at most 30 parallel
lightning downloads, and every parallel download uses the 5-way pool. -/
theorem claim_C6 (outroot sat : String) (gb : Option String) (dl : Bool)
    (client : Client) (now fuel : Nat) (hnow : 3600 ≤ now) :
    ∃ m s, run ⟨none, none, outroot, sat, "full", false, true, true, true, gb, dl⟩
        client now fuel = .ok m s ∧
      (∀ e ∈ s.evs, isDownloadEv e = false) ∧
      (s.evs.filter isPdlEv).length ≤ 30 ∧
      (∀ n b bl od, Ev.pdownload n b bl od ∈ s.evs → n = poolSize) ∧
      poolSize = 5 := by
  have hm := rtAdjust_F_minute now hnow
  have hm3 : ¬ dtMinute (rtAdjust "F" now) < 3 := by omega
  have hrun := run_rt ⟨none, none, outroot, sat, "full", false, true, true, true, gb, dl⟩
    client now fuel 'f' "ull".data rfl "F" (show sectorCode "full" = some "F" by decide) rfl
  rw [mainLoop_rt_glm_only _ _ rfl rfl rfl rfl rfl] at hrun
  refine ⟨_, _, hrun, ?_, ?_, ?_, rfl⟩
  · intro e he
    exact glmRtEvs_no_download _ _ _ _ e he
  · exact le_trans (glmRtEvs_filter_pdl _ _ _ _)
      (le_trans (glmRtKept_length_le _ _ _ _ hm3) (le_of_eq rfl))
  · intro n b bl od hin
    rcases glmRtEvs_mem _ _ _ _ _ hin with h | h | h | h | ⟨i, _, h⟩ | ⟨i, _, g, _, h⟩
    · simp at h
    · simp at h
    · simp at h
    · simp at h
    · simp only [Ev.pdownload.injEq] at h
      exact h.1
    · simp at h

/-- C6 witness: a concrete real-time lightning-only full-disk run satisfies
the download-shape bounds. -/
theorem claim_C6_witness :
    ∃ m s, run ⟨none, none, "o", "goes-16", "full", false, true, true, true, none, false⟩
        ⟨fun _ _ _ _ => ["a"]⟩ 7200 0 = .ok m s ∧
      (∀ e ∈ s.evs, isDownloadEv e = false) ∧
      (s.evs.filter isPdlEv).length ≤ 30 ∧
      (∀ n b bl od, Ev.pdownload n b bl od ∈ s.evs → n = poolSize) ∧
      poolSize = 5 :=
  claim_C6 "o" "goes-16" none false ⟨fun _ _ _ _ => ["a"]⟩ 7200 0 (by omega)

/-- C9 counterexample: in the historical previous-hour lightning backfill
(line 288) the mirror key is the concatenation `pref + basename(outfile)` with
no separator between the category segment and the file name: the copy for
blob `d/glma_b.nc` lands at `20000102/glmglma_b.nc`, not at the claimed
layout-shaped key `20000102/glm/glma_b.nc`. -/
theorem claim_C9_cex :
    backfillLoop ⟨some 0, some 90000, "o", "goes-16", "conus", false, true, true, true,
        some "mir", false⟩ "b" 90000 ["d/glma_b.nc"] ⟨0, none, []⟩ =
      .ok () ⟨0, some "o/20000102/glm/glma_b.nc",
        [.download "b" "d/glma_b.nc" "o/20000102/glm",
         .copy "b" "d/glma_b.nc" "mir" "20000102/glmglma_b.nc"]⟩ ∧
    joinKey 90000 "glm" "d/glma_b.nc" = "20000102/glm/glma_b.nc" ∧
    ("20000102/glmglma_b.nc" : String) ≠ "20000102/glm/glma_b.nc" := by
  refine ⟨by decide, by decide, by decide⟩

/-- C9 (amended): with a mirror bucket configured, the infrared, visible,
secondary-infrared, historical current-hour lightning and historical next-hour
lightning delivery loops all mirror every selected blob by a direct
bucket-to-bucket copy under the layout key `<YYYYMMDD>/<category>/<basename>`;
the historical previous-hour lightning *backfill* loop, however, mirrors each
blob under the separator-less key `<YYYYMMDD>/<category><basename>`, which is
never equal to the layout key. -/
theorem claim_C9 (cfg : Config) (bucket cat : String) (t : Nat) (g : String)
    (hg : cfg.gcs_bucket = some g) (hdel : cfg.del_local = false) :
    (∀ (l : List String) (s : St), ∀ i ∈ l,
      Ev.copy bucket i g (joinKey t cat i) ∈ (deliverLoop cfg bucket cat t l s).evs) ∧
    (∀ (l : List String) (s : St),
      backfillLoop cfg bucket t l s = .ok () (backfillStF cfg bucket t l s)) ∧
    (∀ (l : List String) (s : St), ∀ i ∈ l,
      Ev.copy bucket i g (pathJoin (dayStr t) "glm" ++ basename i) ∈
        (backfillStF cfg bucket t l s).evs) ∧
    (∀ i : String, pathJoin (dayStr t) "glm" ++ basename i ≠ joinKey t "glm" i) := by
  refine ⟨deliverLoop_copy_mem cfg bucket cat t g hg,
    backfillLoop_delFalse cfg bucket t hdel,
    backfillStF_copy_mem cfg bucket t g hg, ?_⟩
  intro i heq
  have hlen := congrArg (fun x => x.data.length) heq
  simp [pathJoin, joinKey, String.data_append, List.length_append] at hlen

/-- C9 witness: a concrete one-blob delivery mirrors under the layout key,
and the backfill key shape provably differs from it. -/
theorem claim_C9_witness :
    Ev.copy "b" "d/a.nc" "mir" (joinKey 90000 "glm" "d/a.nc") ∈
      (deliverLoop ⟨some 0, some 90000, "o", "goes-16", "conus", false, true, true, true,
        some "mir", false⟩ "b" "glm" 90000 ["d/a.nc"] ⟨0, none, []⟩).evs ∧
    pathJoin (dayStr 90000) "glm" ++ basename "d/a.nc" ≠ joinKey 90000 "glm" "d/a.nc" := by
  have h := claim_C9 ⟨some 0, some 90000, "o", "goes-16", "conus", false, true, true, true,
    some "mir", false⟩ "b" "glm" 90000 "mir" rfl rfl
  exact ⟨h.1 ["d/a.nc"] ⟨0, none, []⟩ "d/a.nc" (List.mem_singleton.mpr rfl),
    h.2.2.2 "d/a.nc"⟩

theorem hourBody_c10 (p : Ps) (t : Nat) (filesIn : List String) (s : St)
    (hrt : p.rt = false) (hglm : p.cfg.no_glm = false) (hdel : p.cfg.del_local = true)
    (g : String) (hg : p.cfg.gcs_bucket = some g) (hm : dtMinute t < 3)
    (hout : s.outfile = none)
    (hL0 : ∀ k, p.client.listGcs k p.bucket (hourPre "GLM-L2-LCFA" (t - 3600))
      ["GLM", tStr (t - 3600)] ≠ []) :
    ∃ s', hourBody p t filesIn s = .err .nameError s' := by
  unfold hourBody
  have stage1 : ∃ f1 s1, (if p.cfg.no_ir = false then irStep p t s else .ok filesIn s) =
      .ok f1 s1 ∧ s1.outfile = s.outfile := by
    by_cases hir : p.cfg.no_ir = false
    · rw [if_pos hir]
      exact irStep_hist_pres p t s hrt hdel
    · rw [if_neg hir]
      exact ⟨filesIn, s, rfl, rfl⟩
  obtain ⟨f1, s1, h1, ho1⟩ := stage1
  rw [h1]
  dsimp only
  have stage2 : ∃ f2 s2, (if p.cfg.no_vis = false then
      corrStep p "C02" "vis" none "No VIS files found for " t f1 s1 else .ok f1 s1) =
      .ok f2 s2 ∧ s2.outfile = s1.outfile := by
    by_cases hvis : p.cfg.no_vis = false
    · rw [if_pos hvis]
      exact corrStep_hist_pres p "C02" "vis" none "No VIS files found for " t f1 s1 hrt hdel
    · rw [if_neg hvis]
      exact ⟨f1, s1, rfl, rfl⟩
  obtain ⟨f2, s2, h2, ho2⟩ := stage2
  rw [h2]
  dsimp only
  have stage3 : ∃ f3 s3, (if p.cfg.no_irdiff = false then
      corrStep p "C08" "ir_diff" (some "Waiting for IR C08 files to be available online")
        "No 6.2 micron IR files found for " t f2 s2 else .ok f2 s2) =
      .ok f3 s3 ∧ s3.outfile = s2.outfile := by
    by_cases hdiff : p.cfg.no_irdiff = false
    · rw [if_pos hdiff]
      exact corrStep_hist_pres p "C08" "ir_diff"
        (some "Waiting for IR C08 files to be available online")
        "No 6.2 micron IR files found for " t f2 s2 hrt hdel
    · rw [if_neg hdiff]
      exact ⟨f2, s2, rfl, rfl⟩
  obtain ⟨f3, s3, h3, ho3⟩ := stage3
  rw [h3]
  dsimp only
  exact glmStep_c10 p t f3 s3 hrt hglm hdel g hg hm
    (by rw [ho3, ho2, ho1, hout]) hL0

/-- C10: in a historical run whose start hour has cursor minute below 3, with
lightning enabled, a mirror bucket configured, the skip-local-copy flag set
and all listings non-empty, the previous-hour lightning backfill reads the
never-assigned local-download variable and the run aborts with an unhandled
NameError. -/
theorem claim_C10 (cfg : Config) (client : Client) (now fuel : Nat) (d1 : Nat)
    (h1 : cfg.date1 = some d1) (hd2 : d1 ≤ cfg.date2.getD d1)
    (hglm : cfg.no_glm = false) (hdel : cfg.del_local = true)
    (g : String) (hg : cfg.gcs_bucket = some g) (hm : dtMinute d1 < 3)
    (hs : cfg.sector = "meso1" ∨ cfg.sector = "meso2" ∨ cfg.sector = "conus" ∨
      cfg.sector = "full")
    (hL0 : ∀ k b pre subs, client.listGcs k b pre subs ≠ []) :
    ∃ s', run cfg client now fuel = .err .nameError s' := by
  rcases hs with hs | hs | hs | hs
  · rw [run_hist cfg client now fuel 'm' "eso1".data (by rw [hs]) "M1" (by rw [hs]; try rfl)
      d1 h1]
    obtain ⟨s', hb⟩ := hourBody_c10
      ⟨cfg, client, false, "gcp-public-data-" ++ String.map Char.toLower cfg.sat,
        "M1", "ABI-L1b-Rad" ++ String.mk [Char.toUpper 'm'], fuel⟩
      d1 [] ⟨0, none, []⟩ rfl hglm hdel g hg hm rfl (fun k => hL0 k _ _ _)
    exact ⟨s', mainLoop_err _ _ _ _ _ _ _ _ hd2 hb⟩
  · rw [run_hist cfg client now fuel 'm' "eso2".data (by rw [hs]) "M2" (by rw [hs]; try rfl)
      d1 h1]
    obtain ⟨s', hb⟩ := hourBody_c10
      ⟨cfg, client, false, "gcp-public-data-" ++ String.map Char.toLower cfg.sat,
        "M2", "ABI-L1b-Rad" ++ String.mk [Char.toUpper 'm'], fuel⟩
      d1 [] ⟨0, none, []⟩ rfl hglm hdel g hg hm rfl (fun k => hL0 k _ _ _)
    exact ⟨s', mainLoop_err _ _ _ _ _ _ _ _ hd2 hb⟩
  · rw [run_hist cfg client now fuel 'c' "onus".data (by rw [hs]) "C" (by rw [hs]; try rfl)
      d1 h1]
    obtain ⟨s', hb⟩ := hourBody_c10
      ⟨cfg, client, false, "gcp-public-data-" ++ String.map Char.toLower cfg.sat,
        "C", "ABI-L1b-Rad" ++ String.mk [Char.toUpper 'c'], fuel⟩
      d1 [] ⟨0, none, []⟩ rfl hglm hdel g hg hm rfl (fun k => hL0 k _ _ _)
    exact ⟨s', mainLoop_err _ _ _ _ _ _ _ _ hd2 hb⟩
  · rw [run_hist cfg client now fuel 'f' "ull".data (by rw [hs]) "F" (by rw [hs]; try rfl)
      d1 h1]
    obtain ⟨s', hb⟩ := hourBody_c10
      ⟨cfg, client, false, "gcp-public-data-" ++ String.map Char.toLower cfg.sat,
        "F", "ABI-L1b-Rad" ++ String.mk [Char.toUpper 'f'], fuel⟩
      d1 [] ⟨0, none, []⟩ rfl hglm hdel g hg hm rfl (fun k => hL0 k _ _ _)
    exact ⟨s', mainLoop_err _ _ _ _ _ _ _ _ hd2 hb⟩

/-- C10 witness: a concrete historical run starting at the epoch (minute 0)
with del_local set, a mirror bucket, lightning enabled and non-empty listings
aborts with the NameError. -/
theorem claim_C10_witness :
    ∃ s', run ⟨some 0, none, "o", "goes-16", "conus", false, true, true, true,
        some "mir", true⟩ ⟨fun _ _ _ _ => ["x"]⟩ 0 3 = .err .nameError s' :=
  claim_C10 ⟨some 0, none, "o", "goes-16", "conus", false, true, true, true,
      some "mir", true⟩ ⟨fun _ _ _ _ => ["x"]⟩ 0 3 0 rfl (by decide) rfl rfl "mir" rfl
    (by decide) (Or.inr (Or.inr (Or.inl rfl))) (fun _ _ _ _ h => by simp at h)

end GoesAcq
